import Mathlib

/-!
# libStorage: volume router, server lifecycle and library facade

A shallow embedding of

* `api/server/router/volume/volume.go` (the route table of the volume router),
* `api/server/server_control.go` (`newServer`, `Serve`, `Close`, `close`,
  `closeAllServers`),
* `libstorage.go` (`Serve`, `Dial`),

followed by the properties established about them.
-/

namespace LibStorage

/-! ## Strings -/

/-- Whether the character list `p` is an initial segment of `s`. -/
def startsWith : List Char → List Char → Bool
  | _, [] => true
  | [], _ :: _ => false
  | c :: cs, p :: ps => c == p && startsWith cs ps

/-- Whether `sub` occurs somewhere inside `s`. -/
def containsChars : List Char → List Char → Bool
  | [], sub => startsWith [] sub
  | c :: cs, sub => startsWith (c :: cs) sub || containsChars cs sub

/-- Go's `strings.Contains(s, substr)`. -/
def stringsContains (s substr : String) : Bool :=
  containsChars s.data substr.data

/-! ## Configuration -/

/-- Modelled from the spec: `gofig.Config` is an interface of a dependency that
is not among the sources; only its boolean lookup is used by the code under
study. A configuration is a table of boolean keys, an absent key reading as
`false`. A Go value of interface type `gofig.Config` may be `nil`, so the
embedding passes `Option Config`. -/
structure Config where
  bools : List (String × Bool)
  deriving DecidableEq, Repr

/-- The `GetBool` method of a non-nil configuration. -/
def Config.GetBool (c : Config) (key : String) : Bool :=
  match c.bools.find? (fun kv => kv.1 == key) with
  | some kv => kv.2
  | none => false

/-! ## Routes (`types.Route`, `httputils.New*Route`) -/

/-- HTTP methods used by the volume router. -/
inductive Method
  | GET
  | POST
  | DELETE
  deriving DecidableEq, Repr

/-- The schemas of package `schema` named by the volume router. -/
inductive Schema
  | ServiceVolumeMapSchema
  | VolumeMapSchema
  | VolumeSchema
  | SnapshotSchema
  | VolumeDetachRequestSchema
  | VolumeCreateRequestSchema
  | VolumeCopyRequestSchema
  | VolumeSnapshotRequestSchema
  | VolumeAttachRequestSchema
  deriving DecidableEq, Repr

/-- The request records the schema validators are asked to construct. -/
inductive RequestType
  | VolumeDetachRequest
  | VolumeCreateRequest
  | VolumeCopyRequest
  | VolumeSnapshotRequest
  | VolumeAttachRequest
  deriving DecidableEq, Repr

/-- The middleware values a route is built with: `handlers.NewServiceValidator()`,
`handlers.NewSchemaValidator(reqSchema, resSchema, newReqObj)` and
`handlers.NewPostArgsHandler()`. A `nil` argument is `none`. -/
inductive Middleware
  | serviceValidator
  | schemaValidator (reqSchema : Option Schema) (resSchema : Option Schema)
      (newReqObj : Option RequestType)
  | postArgsHandler
  deriving DecidableEq, Repr

/-- The terminal handlers, the methods of `router` bound by `initRoutes`. -/
inductive Handler
  | volumes
  | volumesForService
  | volumeInspect
  | volumeDetachAllForService
  | volumeCreate
  | volumeCopy
  | volumeSnapshot
  | volumeAttach
  | volumeDetachAll
  | volumeDetach
  | volumeRemove
  deriving DecidableEq, Repr

/-- Modelled from the spec: `types.Route` is declared outside the sources. The
spec describes a route as "a symbolic name, an HTTP method, a URL path template,
an ordered middleware chain, the terminal handler, and an optional set of
required query-parameter names". -/
structure Route where
  name : String
  method : Method
  path : String
  handler : Handler
  middlewares : List Middleware
  queries : List String
  deriving DecidableEq, Repr

namespace httputils

/-- Modelled from the spec: `httputils.NewGetRoute(name, path, handler,
middlewares...)` is not among the sources; it builds a GET route with the given
ordered middleware chain and no required query parameter. -/
def NewGetRoute (name path : String) (handler : Handler)
    (middlewares : List Middleware) : Route :=
  { name := name, method := Method.GET, path := path, handler := handler,
    middlewares := middlewares, queries := [] }

/-- Modelled from the spec: `httputils.NewPostRoute`, the POST counterpart of
`NewGetRoute`. -/
def NewPostRoute (name path : String) (handler : Handler)
    (middlewares : List Middleware) : Route :=
  { name := name, method := Method.POST, path := path, handler := handler,
    middlewares := middlewares, queries := [] }

/-- Modelled from the spec: `httputils.NewDeleteRoute`, the DELETE counterpart
of `NewGetRoute`. -/
def NewDeleteRoute (name path : String) (handler : Handler)
    (middlewares : List Middleware) : Route :=
  { name := name, method := Method.DELETE, path := path, handler := handler,
    middlewares := middlewares, queries := [] }

end httputils

/-- Modelled from the spec: the `Queries` method of a route is not among the
sources; it adds required query-parameter names to the route. -/
def Route.Queries (r : Route) (names : List String) : Route :=
  { r with queries := r.queries ++ names }

/-! ## The volume router (`volume.go`) -/

namespace volume

open Middleware Schema RequestType in
/-- The literal assigned to `r.routes` by `router.initRoutes`, in declaration
order. -/
def initRoutes : List Route :=
  [ -- get all volumes from all services
    httputils.NewGetRoute "volumes" "/volumes" Handler.volumes
      [schemaValidator none (some ServiceVolumeMapSchema) none],
    -- get all volumes from a specific service
    httputils.NewGetRoute "volumesForService" "/volumes/{service}"
      Handler.volumesForService
      [serviceValidator,
       schemaValidator none (some VolumeMapSchema) none],
    -- get a specific volume from a specific service
    httputils.NewGetRoute "volumeInspect" "/volumes/{service}/{volumeID}"
      Handler.volumeInspect
      [serviceValidator,
       schemaValidator none (some VolumeSchema) none],
    -- detach all volumes for a service
    (httputils.NewPostRoute "volumesDetachForService" "/volumes/{service}"
      Handler.volumeDetachAllForService
      [serviceValidator,
       schemaValidator (some VolumeDetachRequestSchema) (some VolumeMapSchema)
         (some VolumeDetachRequest),
       postArgsHandler]).Queries ["detach"],
    -- create a new volume
    httputils.NewPostRoute "volumeCreate" "/volumes/{service}"
      Handler.volumeCreate
      [serviceValidator,
       schemaValidator (some VolumeCreateRequestSchema) (some VolumeSchema)
         (some VolumeCreateRequest),
       postArgsHandler],
    -- create a new volume using an existing volume as the baseline
    (httputils.NewPostRoute "volumeCopy" "/volumes/{service}/{volumeID}"
      Handler.volumeCopy
      [serviceValidator,
       schemaValidator (some VolumeCopyRequestSchema) (some VolumeSchema)
         (some VolumeCopyRequest),
       postArgsHandler]).Queries ["copy"],
    -- snapshot an existing volume
    (httputils.NewPostRoute "volumeSnapshot" "/volumes/{service}/{volumeID}"
      Handler.volumeSnapshot
      [serviceValidator,
       schemaValidator (some VolumeSnapshotRequestSchema) (some SnapshotSchema)
         (some VolumeSnapshotRequest),
       postArgsHandler]).Queries ["snapshot"],
    -- attach an existing volume
    (httputils.NewPostRoute "volumeAttach" "/volumes/{service}/{volumeID}"
      Handler.volumeAttach
      [serviceValidator,
       schemaValidator (some VolumeAttachRequestSchema) (some VolumeSchema)
         (some VolumeAttachRequest),
       postArgsHandler]).Queries ["attach"],
    -- detach all volumes for all services
    (httputils.NewPostRoute "volumesDetachAll" "/volumes"
      Handler.volumeDetachAll
      [schemaValidator (some VolumeDetachRequestSchema)
         (some ServiceVolumeMapSchema) (some VolumeDetachRequest),
       postArgsHandler]).Queries ["detach"],
    -- detach an individual volume
    (httputils.NewPostRoute "volumeDetach" "/volumes/{service}/{volumeID}"
      Handler.volumeDetach
      [serviceValidator,
       schemaValidator (some VolumeDetachRequestSchema) (some VolumeSchema)
         (some VolumeDetachRequest),
       postArgsHandler]).Queries ["detach"],
    -- DELETE
    httputils.NewDeleteRoute "volumeRemove" "/volumes/{service}/{volumeID}"
      Handler.volumeRemove
      [serviceValidator] ]

/-- The `router` struct. -/
structure router where
  config : Option Config
  routes : List Route
  deriving DecidableEq, Repr

/-- The value registered by `init`: `&router{}`. -/
def router.zero : router :=
  { config := none, routes := [] }

/-- The method `router.Name`. -/
def router.Name (_r : router) : String :=
  "volume-router"

/-- The method `router.Init`: stores the configuration, then `initRoutes`. -/
def router.Init (r : router) (config : Option Config) : router :=
  { { r with config := config } with routes := initRoutes }

/-- The method `router.Routes`. -/
def router.Routes (r : router) : List Route :=
  r.routes

end volume

/-! ## Running a middleware chain -/

/-- What one request presents to the stages of a route: the value of its
`{service}` path variable, the names of the registered services, and whether
the schema validation and the post-body argument parsing of this request
succeed. -/
structure RequestEnv where
  service : String
  registered : List String
  schemaOk : Bool
  postArgsOk : Bool
  deriving DecidableEq, Repr

/-- One stage of request processing: a middleware or the terminal handler. -/
inductive Stage
  | middleware (m : Middleware)
  | handler (h : Handler)
  deriving DecidableEq, Repr

/-- How the processing of a request ends. -/
inductive Outcome
  | notFound
  | rejected (m : Middleware)
  | handled (h : Handler)
  deriving DecidableEq, Repr

/-- Modelled from the spec: the middleware implementations are not among the
sources. The service validator "confirms the `{service}` path variable names a
currently active Service; short-circuits with Not-Found otherwise"; the other
two stages succeed or fail on the request body. -/
def Middleware.passes (env : RequestEnv) : Middleware → Bool
  | Middleware.serviceValidator => env.registered.contains env.service
  | Middleware.schemaValidator _ _ _ => env.schemaOk
  | Middleware.postArgsHandler => env.postArgsOk

/-- The outcome reported when stage `m` fails. -/
def Middleware.failure : Middleware → Outcome
  | Middleware.serviceValidator => Outcome.notFound
  | m => Outcome.rejected m

/-- Modelled from the spec: the generic dispatch mechanism is not among the
sources; it "executes the list in order, aborting on first failure and never
invoking the handler or later stages". The result is the list of stages entered,
in order, and the outcome. -/
def runChain (env : RequestEnv) : List Middleware → Handler → List Stage × Outcome
  | [], h => ([Stage.handler h], Outcome.handled h)
  | m :: ms, h =>
    if m.passes env then
      ((Stage.middleware m) :: (runChain env ms h).1, (runChain env ms h).2)
    else
      ([Stage.middleware m], m.failure)

/-- Runs the chain of a route. -/
def Route.serve (r : Route) (env : RequestEnv) : List Stage × Outcome :=
  runChain env r.middlewares r.handler

/-- Whether a middleware is a schema validator. -/
def Middleware.isSchemaValidator : Middleware → Bool
  | Middleware.schemaValidator _ _ _ => true
  | _ => false

/-- A chain carries, in this order, a schema validator and then a post-body
argument handler, with no service validator after the schema validator: the
first schema validator of the chain is followed by a post-args handler and by
no service validator. -/
def schemaThenPostArgs : List Middleware → Bool
  | [] => false
  | Middleware.schemaValidator _ _ _ :: rest =>
    rest.contains Middleware.postArgsHandler &&
      !rest.contains Middleware.serviceValidator
  | _ :: rest => schemaThenPostArgs rest

/-- Drops a leading service validator. -/
def dropServiceValidator : List Middleware → List Middleware
  | Middleware.serviceValidator :: rest => rest
  | ms => ms

/-- The exact shape of the chain of the POST routes: an optional service
validator, one schema validator, one post-args handler. -/
def postChainShape (ms : List Middleware) : Bool :=
  match dropServiceValidator ms with
  | [Middleware.schemaValidator _ _ _, Middleware.postArgsHandler] => true
  | _ => false

/-! ## Dispatch over the route list -/

/-- A request as seen by the dispatcher: its method, the path template its path
falls under, and the names of the query parameters it carries. -/
structure Request where
  method : Method
  path : String
  queries : List String
  deriving DecidableEq, Repr

/-- A route matches a request when method and path template agree and every
required query name of the route is present in the request. -/
def Route.matchesRequest (r : Route) (req : Request) : Bool :=
  r.method == req.method && r.path == req.path &&
    r.queries.all (fun q => req.queries.contains q)

/-- Modelled from the spec: the dispatcher is not among the sources; it selects
the first route, in declaration order, that matches the request. -/
def dispatch (routes : List Route) (req : Request) : Option Route :=
  routes.find? (fun r => r.matchesRequest req)

/-- Routes sharing method and path are declared by non-increasing number of
required query parameters. -/
def declaredBySpecificity (routes : List Route) : Prop :=
  routes.Pairwise (fun a b =>
    a.method = b.method → a.path = b.path → b.queries.length ≤ a.queries.length)

instance (routes : List Route) : Decidable (declaredBySpecificity routes) := by
  unfold declaredBySpecificity
  infer_instance

/-- The four query parameters that key the POST routes on one volume. -/
def volumeActions : List String :=
  ["copy", "snapshot", "attach", "detach"]

/-! ## The server (`server_control.go`): data -/

/-- The error text by which `Serve` recognises a deliberately closed listener. -/
def closedNetworkText : String :=
  "use of closed network connection"

/-- Modelled from the spec: `HTTPServer` is declared outside the sources. An
endpoint has the network and address of its listener (`srv.l.Addr()`), the
error its `Close` method returns (`none` for `nil`), and a count of the calls
made to that method. -/
structure HTTPServer where
  network : String
  addr : String
  closeErr : Option String
  closeCalls : Nat
  deriving DecidableEq, Repr

/-- The method `HTTPServer.Close`: records the call and returns the error. -/
def HTTPServer.Close (srv : HTTPServer) : HTTPServer × Option String :=
  ({ srv with closeCalls := srv.closeCalls + 1 }, srv.closeErr)

/-- An `io.WriteCloser` used as a log sink: the error its `Close` returns and a
count of the calls made to it. -/
structure LogSink where
  closeErr : Option String
  closeCalls : Nat
  deriving DecidableEq, Repr

/-- The goroutine started by `Serve` for one endpoint: it is inside
`srv.Serve()`, or it is about to send on `srvErrs`, or it has ended. -/
inductive ListenerPc
  | serving
  | sending (err : String)
  | finished
  deriving DecidableEq, Repr

/-- The coordination goroutine of `Serve`: not started, waiting in its `select`,
about to run `errs <- err`, about to run `close(errs)`, about to run
`s.closedSignal <- 1`, or ended. -/
inductive CoordPc
  | notStarted
  | selecting
  | forwarding (err : String)
  | closing
  | signalling
  | finished
  deriving DecidableEq, Repr

/-- The state of `closeOnce` and of the function it guards: never run, blocked
in `s.closeSignal <- 1`, blocked in `<-s.closedSignal`, or done. The error is
the value `s.close()` returned. -/
inductive OncePc
  | idle
  | sendingCloseSignal (err : Option String)
  | awaitingClosed (err : Option String)
  | finished (err : Option String)
  deriving DecidableEq, Repr

/-- The `server` struct together with what its goroutines share. The fields
`name` to `stdErr` are those of the struct; `closer` stands for `closeOnce`,
`closeSignal` and `closedSignal` (both channels are unbuffered, so their state
is the position of their two parties); `removed`, `errorLog` and `teardowns`
record the effects of `close` (paths given to `os.RemoveAll`, errors logged, and
the number of runs of its body); the `errs` and `srvErrs` fields are the two
channels made by `Serve`, `errsSent` being every value ever sent on `errs` and
`errsDelivered` the values its reader has received; `listeners` and `coord` are
the goroutines started by `Serve`. -/
structure server where
  name : String
  config : Option Config
  servers : List HTTPServer
  logHTTPEnabled : Bool
  logHTTPRequests : Bool
  logHTTPResponses : Bool
  stdOut : Option LogSink
  stdErr : Option LogSink
  closer : OncePc
  removed : List String
  errorLog : List String
  teardowns : Nat
  errsCap : Nat
  errsBuf : List String
  errsSent : List String
  errsDelivered : List String
  errsClosed : Bool
  srvErrsCap : Nat
  srvErrs : List String
  listeners : List ListenerPc
  coord : CoordPc
  deriving DecidableEq, Repr

/-! ## `newServer` -/

/-- The functions `newServer` calls that are not among the sources, taken as
parameters: `randomServerName()`, `s.initEndpoints()` (an error, or the
endpoints it stores in `s.servers`), `services.Init(s.ctx, s.config)`,
`getLogIO(key, config)` and `s.initRouters()`. -/
structure Deps where
  randomServerName : String
  initEndpoints : Option Config → Except String (List HTTPServer)
  servicesInit : Option Config → Option String
  getLogSink : String → Config → Option LogSink
  initRouters : Option Config → Option String

/-- What a call of `newServer` does: it returns a server, or an error, or it
calls a method on a nil `gofig.Config`, which is a run-time panic in Go. -/
inductive NewServerResult
  | ok (s : server)
  | failed (err : String)
  | nilDereference
  deriving DecidableEq, Repr

/-- The struct literal at the head of `newServer`. -/
def server.fresh (name : String) (config : Option Config) : server :=
  { name := name, config := config, servers := [],
    logHTTPEnabled := false, logHTTPRequests := false, logHTTPResponses := false,
    stdOut := none, stdErr := none, closer := OncePc.idle,
    removed := [], errorLog := [], teardowns := 0,
    errsCap := 0, errsBuf := [], errsSent := [], errsDelivered := [],
    errsClosed := false, srvErrsCap := 0, srvErrs := [],
    listeners := [], coord := CoordPc.notStarted }

/-- The logging part of `newServer`, lines 115 to 127: reads the logging keys of
a non-nil configuration. -/
def server.initLogging (d : Deps) (c : Config) (s : server) : server :=
  if c.GetBool "libstorage.server.http.logging.enabled" then
    { s with
      logHTTPEnabled := true,
      logHTTPRequests := c.GetBool "libstorage.server.http.logging.logrequest",
      logHTTPResponses := c.GetBool "libstorage.server.http.logging.logresponse",
      stdOut := d.getLogSink "libstorage.server.http.logging.out" c,
      stdErr := d.getLogSink "libstorage.server.http.logging.err" c }
  else
    { s with logHTTPEnabled := false }

/-- The function `newServer`. -/
def newServer (d : Deps) (config : Option Config) : NewServerResult :=
  let s := server.fresh d.randomServerName config
  match d.initEndpoints s.config with
  | Except.error err => NewServerResult.failed err
  | Except.ok endpoints =>
    let s := { s with servers := endpoints }
    match d.servicesInit s.config with
    | some err => NewServerResult.failed err
    | none =>
      match config with
      | none => NewServerResult.nilDereference
      | some c =>
        let s := s.initLogging d c
        match d.initRouters s.config with
        | some err => NewServerResult.failed err
        | none => NewServerResult.ok s

/-! ## `close` and the goroutines of `Serve` -/

/-- The body of the loop of `close` over `s.servers`: closes each endpoint, logs
a close error without stopping, and removes the socket file of a unix
endpoint. The pair carried along is (errors logged, paths removed). -/
def closeEndpoints : List HTTPServer → List String × List String →
    List HTTPServer × (List String × List String)
  | [], fx => ([], fx)
  | srv :: rest, fx =>
    let logged :=
      match srv.Close.2 with
      | some err => fx.1 ++ [err]
      | none => fx.1
    let removed :=
      if srv.network == "unix" then fx.2 ++ [srv.addr] else fx.2
    let out := closeEndpoints rest (logged, removed)
    (srv.Close.1 :: out.1, out.2)

/-- The two blocks of `close` that close `s.stdOut` and `s.stdErr`: a nil sink
is skipped, a close error is logged. -/
def closeSink : Option LogSink → List String → Option LogSink × List String
  | none, logged => (none, logged)
  | some k, logged =>
    (some { k with closeCalls := k.closeCalls + 1 },
      match k.closeErr with
      | some err => logged ++ [err]
      | none => logged)

/-- The method `server.close`; its last statement is `return nil`. -/
def server.close (s : server) : server × Option String :=
  let eps := closeEndpoints s.servers (s.errorLog, s.removed)
  let out := closeSink s.stdOut eps.2.1
  let err := closeSink s.stdErr out.2
  ({ s with servers := eps.1, removed := eps.2.2, stdOut := out.1,
            stdErr := err.1, errorLog := err.2, teardowns := s.teardowns + 1 },
   none)

/-- The body of a listener goroutine after `srv.Serve()` has returned `err`: a
non-nil error whose text does not contain the closed-connection text is to be
sent on `srvErrs`; otherwise the goroutine ends. -/
def listenerAfterServe (err : Option String) : ListenerPc :=
  match err with
  | none => ListenerPc.finished
  | some e =>
    if !stringsContains e closedNetworkText then ListenerPc.sending e
    else ListenerPc.finished

/-- The atomic actions of the goroutines around a started server. -/
inductive Event
  | listenerEnds (i : Nat) (err : Option String)
  | listenerSends (i : Nat)
  | coordRecvErr
  | coordRecvClose
  | coordSends
  | coordHandsOver
  | coordCloses
  | coordAcks
  | closeCalled
  | readerRecv
  deriving DecidableEq, Repr

/-- One atomic action, `none` when the action is not enabled in the state.

* `listenerEnds i err`: `srv.Serve()` of endpoint `i` returns `err`.
* `listenerSends i`: `srvErrs <- err`, possible while the buffer has room.
* `coordRecvErr`: the `select` takes `case err := <-srvErrs`.
* `coordRecvClose`: the `select` takes `case <-s.closeSignal`, which needs a
  `Close` blocked in `s.closeSignal <- 1`.
* `coordSends`: `errs <- err` into the buffer of `errs`.
* `coordHandsOver`: `errs <- err` handed to a reader waiting on the empty
  channel.
* `coordCloses`: `close(errs)`.
* `coordAcks`: `s.closedSignal <- 1`, which needs a `Close` blocked in
  `<-s.closedSignal`.
* `closeCalled`: the first `Close` enters `closeOnce.Do` and runs `s.close()`.
* `readerRecv`: the caller of `Serve` receives a buffered value from `errs`. -/
def step (ev : Event) (s : server) : Option server :=
  match ev with
  | Event.listenerEnds i err =>
    match s.listeners[i]? with
    | some ListenerPc.serving =>
      some { s with listeners := s.listeners.set i (listenerAfterServe err) }
    | _ => none
  | Event.listenerSends i =>
    match s.listeners[i]? with
    | some (ListenerPc.sending e) =>
      if s.srvErrs.length < s.srvErrsCap then
        some { s with listeners := s.listeners.set i ListenerPc.finished,
                      srvErrs := s.srvErrs ++ [e] }
      else none
    | _ => none
  | Event.coordRecvErr =>
    match s.coord, s.srvErrs with
    | CoordPc.selecting, e :: rest =>
      some { s with coord := CoordPc.forwarding e, srvErrs := rest }
    | _, _ => none
  | Event.coordRecvClose =>
    match s.coord, s.closer with
    | CoordPc.selecting, OncePc.sendingCloseSignal err =>
      some { s with coord := CoordPc.closing, closer := OncePc.awaitingClosed err }
    | _, _ => none
  | Event.coordSends =>
    match s.coord with
    | CoordPc.forwarding e =>
      if s.errsBuf.length < s.errsCap then
        some { s with coord := CoordPc.closing, errsBuf := s.errsBuf ++ [e],
                      errsSent := s.errsSent ++ [e] }
      else none
    | _ => none
  | Event.coordHandsOver =>
    match s.coord, s.errsBuf with
    | CoordPc.forwarding e, [] =>
      some { s with coord := CoordPc.closing, errsSent := s.errsSent ++ [e],
                    errsDelivered := s.errsDelivered ++ [e] }
    | _, _ => none
  | Event.coordCloses =>
    match s.coord with
    | CoordPc.closing => some { s with coord := CoordPc.signalling, errsClosed := true }
    | _ => none
  | Event.coordAcks =>
    match s.coord, s.closer with
    | CoordPc.signalling, OncePc.awaitingClosed err =>
      some { s with coord := CoordPc.finished, closer := OncePc.finished err }
    | _, _ => none
  | Event.closeCalled =>
    match s.closer with
    | OncePc.idle =>
      some { s.close.1 with closer := OncePc.sendingCloseSignal s.close.2 }
    | _ => none
  | Event.readerRecv =>
    match s.errsBuf with
    | v :: rest =>
      some { s with errsBuf := rest, errsDelivered := s.errsDelivered ++ [v] }
    | [] => none

/-- Runs a list of actions in order, `none` as soon as one is not enabled. -/
def run : List Event → server → Option server
  | [], s => some s
  | ev :: evs, s =>
    match step ev s with
    | some s1 => run evs s1
    | none => none

/-- State `t` is reached from `s` by some sequence of actions. -/
def Reachable (s t : server) : Prop :=
  ∃ evs, run evs s = some t

/-! ## `Serve` -/

/-- The goroutine `Serve` starts when `newServer` fails: about to run
`errs <- err`, about to run `close(errs)`, or ended. -/
inductive SenderPc
  | sending
  | closing
  | finished
  deriving DecidableEq, Repr

/-- The unbuffered channel `errs` made on the failure path of `Serve`, with the
goroutine that feeds it: the error to send, the position of the goroutine, the
values the reader has received so far, and whether the channel is closed. -/
structure FailedServe where
  err : String
  pc : SenderPc
  received : List String
  closed : Bool
  deriving DecidableEq, Repr

/-- One action of the failure-path goroutine, the reader of `errs` being ready
to receive: the unbuffered send completes by handing the error to the reader,
then the channel is closed, then nothing more happens. -/
def FailedServe.step (f : FailedServe) : Option FailedServe :=
  match f.pc with
  | SenderPc.sending =>
    some { f with pc := SenderPc.closing, received := f.received ++ [f.err] }
  | SenderPc.closing =>
    some { f with pc := SenderPc.finished, closed := true }
  | SenderPc.finished => none

/-- What `Serve` gives back: `(nil, errs)` with the failure-path goroutine, or
`(s, errs)` with the listener and coordination goroutines started, or no return
at all because `newServer` panicked. -/
inductive ServeResult
  | failed (f : FailedServe)
  | started (s : server)
  | panicked
  deriving DecidableEq, Repr

/-- The function `Serve` of package `server`. On success `errs` and `srvErrs`
are made with capacity `len(s.servers)`, one listener goroutine is started per
endpoint, and the coordination goroutine is started. -/
def Serve (d : Deps) (config : Option Config) : ServeResult :=
  match newServer d config with
  | NewServerResult.failed err =>
    ServeResult.failed
      { err := err, pc := SenderPc.sending, received := [], closed := false }
  | NewServerResult.nilDereference => ServeResult.panicked
  | NewServerResult.ok s =>
    ServeResult.started
      { s with
        errsCap := s.servers.length, errsBuf := [], errsSent := [],
        errsDelivered := [], errsClosed := false,
        srvErrsCap := s.servers.length, srvErrs := [],
        listeners := s.servers.map (fun _ => ListenerPc.serving),
        coord := CoordPc.selecting }

/-- The first value returned by `Serve`, the `io.Closer`; `none` is `nil`. -/
def ServeResult.closer : ServeResult → Option server
  | ServeResult.started s => some s
  | _ => none

/-- The number of listener goroutines `Serve` started. -/
def ServeResult.listenerTasks : ServeResult → Nat
  | ServeResult.started s => s.listeners.length
  | _ => 0

/-- The number of coordination goroutines `Serve` started. -/
def ServeResult.coordinationTasks : ServeResult → Nat
  | ServeResult.started s => if s.coord = CoordPc.notStarted then 0 else 1
  | _ => 0

/-! ## `Close` -/

/-- Brings the handshake of a `Close` that is inside `closeOnce.Do` to its end,
the coordination goroutine being the only other party: `s.closeSignal <- 1` is
received by the `select`, `errs` is closed, `s.closedSignal <- 1` is received by
`Close`. When an error waits in `srvErrs` the `select` has two ready cases;
`pickErr` tells whether it takes the error. The result is `none` when the
handshake never ends. -/
def handshake (pickErr : Bool) (s : server) : Option server :=
  match s.closer, s.coord with
  | OncePc.sendingCloseSignal _, CoordPc.selecting =>
    if pickErr && !s.srvErrs.isEmpty then none
    else run [Event.coordRecvClose, Event.coordCloses, Event.coordAcks] s
  | OncePc.awaitingClosed _, CoordPc.closing =>
    run [Event.coordCloses, Event.coordAcks] s
  | OncePc.awaitingClosed _, CoordPc.signalling =>
    run [Event.coordAcks] s
  | _, _ => none

/-- The method `server.Close`, as the state after the call and the error it
returns, `none` when the call never returns. When `closeOnce` is done the
function is not run and the named result `err` keeps its zero value; on the
first call `err = s.close()`, then the handshake; a call made while another is
inside `closeOnce.Do` waits for that one and returns the zero value. -/
def server.Close (pickErr : Bool) (s : server) : Option (server × Option String) :=
  match s.closer with
  | OncePc.finished _ => some (s, none)
  | OncePc.idle =>
    match step Event.closeCalled s with
    | none => none
    | some s1 =>
      match handshake pickErr s1 with
      | none => none
      | some s2 => some (s2, s.close.2)
  | _ =>
    match handshake pickErr s with
    | none => none
    | some s2 => some (s2, none)

/-- A sequence of `Close` calls, one after the other: the final state and the
values returned, `none` when one of the calls never returns. -/
def closeMany : List Bool → server → Option (server × List (Option String))
  | [], s => some (s, [])
  | p :: ps, s =>
    match s.Close p with
    | none => none
    | some (s1, r) =>
      match closeMany ps s1 with
      | none => none
      | some (s2, rs) => some (s2, r :: rs)

/-- The function `closeAllServers` over the package variable `servers`: closes
each server and reports whether no `Close` returned an error. -/
def closeAllServers (pickErr : Bool) : List server → Option (List server × Bool)
  | [] => some ([], true)
  | s :: rest =>
    match s.Close pickErr with
    | none => none
    | some (s1, err) =>
      match closeAllServers pickErr rest with
      | none => none
      | some (rest1, noErrors) =>
        some (s1 :: rest1, if err.isSome then false else noErrors)

/-- A server on which a `Close` call completes its handshake: `closeOnce` has
not run, the coordination goroutine waits in its `select`, and the `select`
takes the close signal (no error is waiting in `srvErrs`, or `pickErr` is
false). -/
def server.awaitsClose (s : server) (pickErr : Bool) : Bool :=
  s.closer == OncePc.idle && s.coord == CoordPc.selecting &&
    (s.srvErrs.isEmpty || !pickErr)

/-- The state a completed first `Close` leaves: the effects of `close`, `errs`
closed, the coordination goroutine ended, `closeOnce` done. -/
def server.closed (s : server) : server :=
  { s.close.1 with
    coord := CoordPc.finished, errsClosed := true,
    closer := OncePc.finished s.close.2 }

/-- A `Close` is blocked in `s.closeSignal <- 1` and the coordination goroutine
is no longer at its `select`, the only place where it receives from
`closeSignal`. -/
def server.closeBlocked (s : server) : Bool :=
  match s.closer, s.coord with
  | OncePc.sendingCloseSignal _, CoordPc.selecting => false
  | OncePc.sendingCloseSignal _, _ => true
  | _, _ => false

/-- The addresses of the unix endpoints, in order: the paths one run of `close`
hands to `os.RemoveAll`. -/
def unixSockets (l : List HTTPServer) : List String :=
  (l.filter (fun srv => srv.network == "unix")).map HTTPServer.addr

/-- A log sink after one call of its `Close`. -/
def LogSink.closedOnce (k : LogSink) : LogSink :=
  { k with closeCalls := k.closeCalls + 1 }

/-- The error logged when a sink is closed: none for a nil sink or a sink whose
`Close` succeeds. -/
def sinkError : Option LogSink → List String
  | some k => k.closeErr.toList
  | none => []

/-- An action by which a listener ends with an error that the listener body
forwards. -/
def Event.isListenerFailure : Event → Bool
  | Event.listenerEnds _ (some e) => !stringsContains e closedNetworkText
  | _ => false

/-- In a sequence of actions, some listener fails with a forwarded error before
`Close` is called, so before any close signal exists. -/
def failsBeforeClose : List Event → Bool
  | [] => false
  | ev :: rest =>
    ev.isListenerFailure || (ev != Event.closeCalled && failsBeforeClose rest)

/-! ## The library facade (`libstorage.go`) -/

namespace libstorage

/-- The function `libstorage.Serve`: `return server.Serve(config)`. -/
def Serve (d : Deps) (config : Option Config) : ServeResult :=
  LibStorage.Serve d config

/-- The function `libstorage.Dial`: `return client.Dial(ctx, config)`, the
client package being a parameter since it is not among the sources. -/
def Dial {Client : Type} (clientDial : Option Config → Client)
    (config : Option Config) : Client :=
  clientDial config

end libstorage

/-! ## The invariant of a started server -/

/-- The coordination goroutine has not received the close signal: `Close` has
not been called, or it is still blocked in `s.closeSignal <- 1`. -/
def OncePc.beforeSignal : OncePc → Bool
  | OncePc.idle => true
  | OncePc.sendingCloseSignal _ => true
  | _ => false

/-- The close signal was received and `Close` waits for its acknowledgement. -/
def OncePc.isAwaiting : OncePc → Bool
  | OncePc.awaitingClosed _ => true
  | _ => false

/-- The function guarded by `closeOnce` has returned. -/
def OncePc.isFinished : OncePc → Bool
  | OncePc.finished _ => true
  | _ => false

/-- The number of listener goroutines that have ended. -/
def finishedCount : List ListenerPc → Nat
  | [] => 0
  | ListenerPc.finished :: rest => finishedCount rest + 1
  | _ :: rest => finishedCount rest

/-- What was sent on `errs` agrees with the way the coordination goroutine left
its `select`: through a listener error, and then exactly one error was sent, or
through the close signal, and then none was. -/
def sentMatches (s : server) : Prop :=
  (s.closer.beforeSignal = true ∧ s.errsSent.length = 1) ∨
  (s.closer.isAwaiting = true ∧ s.errsSent = [])

/-- The state of `errs` and of `closeOnce` at each position of the coordination
goroutine. -/
def coordPhase (s : server) : Prop :=
  match s.coord with
  | CoordPc.notStarted => False
  | CoordPc.selecting =>
    s.errsSent = [] ∧ s.errsBuf = [] ∧ s.errsClosed = false ∧
      s.closer.beforeSignal = true
  | CoordPc.forwarding e =>
    s.errsSent = [] ∧ s.errsBuf = [] ∧ s.errsClosed = false ∧
      s.closer.beforeSignal = true ∧ 0 < s.listeners.length ∧
      stringsContains e closedNetworkText = false
  | CoordPc.closing => s.errsClosed = false ∧ sentMatches s
  | CoordPc.signalling => s.errsClosed = true ∧ sentMatches s
  | CoordPc.finished =>
    s.errsClosed = true ∧ s.errsSent = [] ∧ s.closer.isFinished = true

/-- The invariant of the states of a started server: both channels have the
capacity `len(s.servers)`; `srvErrs` holds at most one error per ended listener;
every error a listener holds or has sent, and every error sent on `errs`, is one
the listener body forwards; and `errs` agrees with the position of the
coordination goroutine. -/
structure Inv (s : server) : Prop where
  errsCap_eq : s.errsCap = s.listeners.length
  srvErrsCap_eq : s.srvErrsCap = s.listeners.length
  srvErrs_le : s.srvErrs.length ≤ finishedCount s.listeners
  srvErrs_ok : ∀ e ∈ s.srvErrs, stringsContains e closedNetworkText = false
  sending_ok : ∀ (i : Nat) (e : String),
    s.listeners[i]? = some (ListenerPc.sending e) →
    stringsContains e closedNetworkText = false
  sent_ok : ∀ e ∈ s.errsSent, stringsContains e closedNetworkText = false
  phase : coordPhase s

/-! ## Sample inputs -/

/-- A configuration with HTTP logging left at its defaults. -/
def sampleConfig : Config :=
  { bools := [] }

/-- A TCP endpoint whose `Close` succeeds. -/
def tcpEndpoint : HTTPServer :=
  { network := "tcp", addr := "127.0.0.1:7979", closeErr := none, closeCalls := 0 }

/-- A unix-socket endpoint whose `Close` fails. -/
def unixEndpoint : HTTPServer :=
  { network := "unix", addr := "/tmp/libstorage.sock",
    closeErr := some "close unix /tmp/libstorage.sock: bad file descriptor",
    closeCalls := 0 }

/-- Dependencies under which construction succeeds with the given endpoints,
whatever the configuration. -/
def sampleDeps (endpoints : List HTTPServer) : Deps :=
  { randomServerName := "server-1",
    initEndpoints := fun _ => Except.ok endpoints,
    servicesInit := fun _ => none,
    getLogSink := fun _ _ => none,
    initRouters := fun _ => none }

/-- Dependencies under which endpoint initialisation fails. -/
def failingDeps : Deps :=
  { randomServerName := "server-2",
    initEndpoints := fun _ =>
      Except.error "listen tcp 127.0.0.1:7979: bind: address already in use",
    servicesInit := fun _ => none,
    getLogSink := fun _ _ => none,
    initRouters := fun _ => none }

/-- The server `Serve` starts for one TCP endpoint. -/
def oneEndpointServer : server :=
  { server.fresh "server-1" (some sampleConfig) with
    servers := [tcpEndpoint], errsCap := 1, srvErrsCap := 1,
    listeners := [ListenerPc.serving], coord := CoordPc.selecting }

/-- The server `Serve` starts for a TCP and a unix endpoint. -/
def twoEndpointServer : server :=
  { server.fresh "server-1" (some sampleConfig) with
    servers := [tcpEndpoint, unixEndpoint], errsCap := 2, srvErrsCap := 2,
    listeners := [ListenerPc.serving, ListenerPc.serving],
    coord := CoordPc.selecting }

/-- A listener error that is not the closed-connection error. -/
def acceptFailure : String :=
  "accept tcp 127.0.0.1:7979: accept4: too many open files"

/-- The actions by which one listener fails, the coordination goroutine takes
the error and closes `errs`, and `Close` is then called. -/
def failThenClose : List Event :=
  [Event.listenerEnds 0 (some acceptFailure), Event.listenerSends 0,
   Event.coordRecvErr, Event.coordSends, Event.coordCloses, Event.closeCalled]

/-- The entry of `initRoutes` for `volumeAttach`. -/
def sampleAttachRoute : Route :=
  { name := "volumeAttach", method := Method.POST,
    path := "/volumes/{service}/{volumeID}", handler := Handler.volumeAttach,
    middlewares :=
      [Middleware.serviceValidator,
       Middleware.schemaValidator (some Schema.VolumeAttachRequestSchema)
         (some Schema.VolumeSchema) (some RequestType.VolumeAttachRequest),
       Middleware.postArgsHandler],
    queries := ["attach"] }

/-- A request for a service that is not registered, with a valid body. -/
def unknownServiceEnv : RequestEnv :=
  { service := "missing", registered := ["vfs", "mock"], schemaOk := true,
    postArgsOk := true }

/-- The request `POST /volumes/{service}/{volumeID}?attach`. -/
def attachRequest : Request :=
  { method := Method.POST, path := "/volumes/{service}/{volumeID}",
    queries := ["attach"] }

/-- The route that serves each of the four volume actions, by name. -/
def volumeActionRoutes : List (String × String) :=
  [("copy", "volumeCopy"), ("snapshot", "volumeSnapshot"),
   ("attach", "volumeAttach"), ("detach", "volumeDetach")]

/-- The one-endpoint server after its listener failed and the coordination
goroutine forwarded the error and closed `errs`. -/
def erroredServer : server :=
  { oneEndpointServer with
    errsBuf := [acceptFailure], errsSent := [acceptFailure], errsClosed := true,
    listeners := [ListenerPc.finished], coord := CoordPc.signalling }

/-- The state `erroredServer` after `Close` has been called on it and has run
`s.close()`. -/
def blockedServer : server :=
  { erroredServer with
    servers := [{ tcpEndpoint with closeCalls := 1 }], teardowns := 1,
    closer := OncePc.sendingCloseSignal none }

/-- A log sink whose `Close` succeeds. -/
def outSink : LogSink :=
  { closeErr := none, closeCalls := 0 }

/-- A log sink whose `Close` fails. -/
def errSink : LogSink :=
  { closeErr := some "close /var/log/libstorage.err: file already closed",
    closeCalls := 0 }

/-- A configuration that enables HTTP logging. -/
def loggingConfig : Config :=
  { bools := [("libstorage.server.http.logging.enabled", true)] }

/-- Dependencies under which construction succeeds with a TCP and a unix
endpoint and both log sinks are opened. -/
def loggingDeps : Deps :=
  { randomServerName := "server-3",
    initEndpoints := fun _ => Except.ok [tcpEndpoint, unixEndpoint],
    servicesInit := fun _ => none,
    getLogSink := fun key _ =>
      if key == "libstorage.server.http.logging.out" then some outSink
      else some errSink,
    initRouters := fun _ => none }

/-- The server `Serve` starts under `loggingDeps` and `loggingConfig`. -/
def loggingServer : server :=
  { server.fresh "server-3" (some loggingConfig) with
    servers := [tcpEndpoint, unixEndpoint], logHTTPEnabled := true,
    stdOut := some outSink, stdErr := some errSink,
    errsCap := 2, srvErrsCap := 2,
    listeners := [ListenerPc.serving, ListenerPc.serving],
    coord := CoordPc.selecting }

/-- The server `loggingServer` after its first listener failed and the
coordination goroutine forwarded the error and closed `errs`; the second
endpoint is still serving. -/
def halfServingServer : server :=
  { loggingServer with
    errsBuf := [acceptFailure], errsSent := [acceptFailure], errsClosed := true,
    listeners := [ListenerPc.finished, ListenerPc.serving],
    coord := CoordPc.signalling }

/-- The state `halfServingServer` after `Close` has been called on it and has
run `s.close()`: both endpoints and both sinks closed, the socket file removed,
two close errors logged, and `Close` blocked in `s.closeSignal <- 1`. -/
def stuckServer : server :=
  { halfServingServer with
    servers := [{ tcpEndpoint with closeCalls := 1 },
                { unixEndpoint with closeCalls := 1 }],
    stdOut := some { outSink with closeCalls := 1 },
    stdErr := some { errSink with closeCalls := 1 },
    removed := ["/tmp/libstorage.sock"],
    errorLog := ["close unix /tmp/libstorage.sock: bad file descriptor",
                 "close /var/log/libstorage.err: file already closed"],
    teardowns := 1,
    closer := OncePc.sendingCloseSignal none }

/-- A listener fails and queues its error; `Close` is then called and the
`select` of the coordination goroutine takes the close signal. -/
def failThenCloseWins : List Event :=
  [Event.listenerEnds 0 (some acceptFailure), Event.listenerSends 0,
   Event.closeCalled, Event.coordRecvClose, Event.coordCloses, Event.coordAcks]

/-- A listener fails and still holds its error; `Close` is then called and the
`select` of the coordination goroutine takes the close signal. -/
def failInHandThenClose : List Event :=
  [Event.listenerEnds 0 (some acceptFailure),
   Event.closeCalled, Event.coordRecvClose, Event.coordCloses, Event.coordAcks]

/-- The error a listener ends with when it was closed on purpose. -/
def closedConnError : String :=
  "accept tcp 127.0.0.1:7979: use of closed network connection"

/-- The one-endpoint server after its listener ended without sending. -/
def quietServer : server :=
  { oneEndpointServer with listeners := [ListenerPc.finished] }

/-! # Properties -/

/-! ## The route table -/

/-- The routes of an initialised router are those of `initRoutes`. -/
theorem Routes_Init (r : volume.router) (config : Option Config) :
    (r.Init config).Routes = volume.initRoutes := by
  rfl

/-- C1: after `router.Init`, `Routes()` returns exactly eleven routes, whose
name, method, path template and required query parameters are the eleven
listed, in declaration order; the route names are pairwise distinct. -/
theorem C1_routes_after_Init (r : volume.router) (config : Option Config) :
    ((r.Init config).Routes.map
        (fun rt => (rt.name, rt.method, rt.path, rt.queries)) =
      [ ("volumes", Method.GET, "/volumes", []),
        ("volumesForService", Method.GET, "/volumes/{service}", []),
        ("volumeInspect", Method.GET, "/volumes/{service}/{volumeID}", []),
        ("volumesDetachForService", Method.POST, "/volumes/{service}", ["detach"]),
        ("volumeCreate", Method.POST, "/volumes/{service}", []),
        ("volumeCopy", Method.POST, "/volumes/{service}/{volumeID}", ["copy"]),
        ("volumeSnapshot", Method.POST, "/volumes/{service}/{volumeID}",
          ["snapshot"]),
        ("volumeAttach", Method.POST, "/volumes/{service}/{volumeID}", ["attach"]),
        ("volumesDetachAll", Method.POST, "/volumes", ["detach"]),
        ("volumeDetach", Method.POST, "/volumes/{service}/{volumeID}", ["detach"]),
        ("volumeRemove", Method.DELETE, "/volumes/{service}/{volumeID}", []) ]) ∧
    (r.Init config).Routes.length = 11 ∧
    ((r.Init config).Routes.map Route.name).Nodup := by
  rw [Routes_Init]
  decide

/-- Every route with `{service}` in its path starts its chain with the service
validator. -/
theorem service_routes_head :
    ∀ r ∈ volume.initRoutes, stringsContains r.path "{service}" = true →
      r.middlewares.head? = some Middleware.serviceValidator := by
  decide

/-- A chain headed by the service validator stops there for a service that is
not registered. -/
theorem runChain_unregistered (env : RequestEnv) (ms : List Middleware)
    (h : Handler) (hhead : ms.head? = some Middleware.serviceValidator)
    (hsvc : env.service ∉ env.registered) :
    runChain env ms h =
      ([Stage.middleware Middleware.serviceValidator], Outcome.notFound) := by
  cases ms with
  | nil => simp at hhead
  | cons m rest =>
    simp only [List.head?_cons, Option.some.injEq] at hhead
    subst hhead
    have hp : Middleware.passes env Middleware.serviceValidator = false := by
      simp [Middleware.passes, hsvc]
    simp [runChain, hp, Middleware.failure]

/-- C2: every route of the volume router whose path template contains
`{service}` has the service validator as the first element of its middleware
chain (so before every schema validator, post-args handler and the terminal
handler); and running the chain in order with abort on first failure, a request
naming an unregistered service enters the service validator only and ends with
Not-Found, whatever the other stages would do. -/
theorem C2_service_validator_first (r : Route) (hr : r ∈ volume.initRoutes)
    (hp : stringsContains r.path "{service}" = true) :
    r.middlewares.head? = some Middleware.serviceValidator ∧
    ∀ env : RequestEnv, env.service ∉ env.registered →
      r.serve env =
        ([Stage.middleware Middleware.serviceValidator], Outcome.notFound) := by
  have hhead := service_routes_head r hr hp
  exact ⟨hhead, fun env hsvc => runChain_unregistered env _ _ hhead hsvc⟩

/-- Witness of C2 at the `volumeAttach` route and a request for an unregistered
service. -/
theorem C2_service_validator_first_witness :
    sampleAttachRoute.middlewares.head? = some Middleware.serviceValidator ∧
    sampleAttachRoute.serve unknownServiceEnv =
      ([Stage.middleware Middleware.serviceValidator], Outcome.notFound) :=
  ⟨(C2_service_validator_first sampleAttachRoute (by decide) (by decide)).1,
   (C2_service_validator_first sampleAttachRoute (by decide) (by decide)).2
     unknownServiceEnv (by decide)⟩

/-- C3 as stated fails: the DELETE route `volumeRemove` is a mutating route and
its chain, the service validator alone, carries neither a schema validator nor
a post-args handler. -/
theorem C3_delete_route_counterexample :
    ¬ (∀ r ∈ volume.initRoutes,
        (r.method = Method.POST ∨ r.method = Method.DELETE) →
          schemaThenPostArgs r.middlewares = true) := by
  decide

/-- C3 amended: every POST route of the volume router carries, in this order,
a schema validator and then a post-args handler, placed after the service
validator when one is present (its chain is an optional service validator, one
schema validator, one post-args handler); the chain of a DELETE route is the
service validator alone. -/
theorem C3_post_routes_chain (r : Route) (hr : r ∈ volume.initRoutes) :
    (r.method = Method.POST →
      schemaThenPostArgs r.middlewares = true ∧
      postChainShape r.middlewares = true) ∧
    (r.method = Method.DELETE →
      r.middlewares = [Middleware.serviceValidator]) := by
  revert r
  decide

/-- Witness of C3 amended at the `volumeAttach` route. -/
theorem C3_post_routes_chain_witness :
    schemaThenPostArgs sampleAttachRoute.middlewares = true ∧
    postChainShape sampleAttachRoute.middlewares = true :=
  (C3_post_routes_chain sampleAttachRoute (by decide)).1 (by decide)

/-! ## Dispatch -/

/-- The routes of the volume router that share method and path are declared by
non-increasing number of required query parameters. -/
theorem initRoutes_declaredBySpecificity :
    declaredBySpecificity volume.initRoutes := by
  decide

/-- First-match dispatch over a list declared by specificity selects a matching
route that requires at least as many query parameters as any matching route. -/
theorem dispatch_most_specific (routes : List Route)
    (h : declaredBySpecificity routes) (req : Request) (r : Route)
    (hd : dispatch routes req = some r) :
    r ∈ routes ∧ r.matchesRequest req = true ∧
    ∀ r2 ∈ routes, r2.matchesRequest req = true →
      r2.queries.length ≤ r.queries.length := by
  induction routes with
  | nil => simp [dispatch] at hd
  | cons a t ih =>
    unfold declaredBySpecificity at h
    rw [List.pairwise_cons] at h
    obtain ⟨ha, ht⟩ := h
    unfold dispatch at hd
    rw [List.find?_cons] at hd
    by_cases hm : a.matchesRequest req = true
    · simp only [hm] at hd
      injection hd with hd
      subst hd
      refine ⟨List.mem_cons_self _ _, hm, ?_⟩
      intro r2 hr2 hm2
      rcases List.mem_cons.mp hr2 with rfl | hr2
      · exact le_refl _
      · have hsame : a.method = r2.method ∧ a.path = r2.path := by
          simp only [Route.matchesRequest, Bool.and_eq_true, beq_iff_eq] at hm hm2
          exact ⟨hm.1.1.trans hm2.1.1.symm, hm.1.2.trans hm2.1.2.symm⟩
        exact ha r2 hr2 hsame.1 hsame.2
    · have hm0 : a.matchesRequest req = false := by simpa using hm
      simp only [hm0] at hd
      obtain ⟨h1, h2, h3⟩ := ih ht hd
      refine ⟨List.mem_cons_of_mem _ h1, h2, ?_⟩
      intro r2 hr2 hm2
      rcases List.mem_cons.mp hr2 with rfl | hr2
      · exact absurd hm2 hm
      · exact h3 r2 hr2 hm2

/-- Dispatch selects a route whenever some route matches. -/
theorem dispatch_isSome (routes : List Route) (req : Request) (r : Route)
    (hr : r ∈ routes) (hm : r.matchesRequest req = true) :
    ∃ r1, dispatch routes req = some r1 := by
  cases hd : dispatch routes req with
  | some r1 => exact ⟨r1, rfl⟩
  | none =>
    unfold dispatch at hd
    rw [List.find?_eq_none] at hd
    exact absurd hm (hd r hr)

/-- A POST to `/volumes/{service}` selects `volumesDetachForService` when
`detach` is present and `volumeCreate` when it is absent. -/
theorem dispatch_post_service (req : Request) (hm : req.method = Method.POST)
    (hp : req.path = "/volumes/{service}") :
    ∃ r, dispatch volume.initRoutes req = some r ∧
      r.name = (if "detach" ∈ req.queries then "volumesDetachForService"
                else "volumeCreate") ∧
      r.queries = (if "detach" ∈ req.queries then ["detach"] else []) := by
  obtain ⟨m, p, q⟩ := req
  simp only at hm hp
  subst hm hp
  by_cases h : "detach" ∈ q
  · simp [dispatch, volume.initRoutes, Route.matchesRequest, httputils.NewGetRoute,
      httputils.NewPostRoute, httputils.NewDeleteRoute, Route.Queries, h]
  · simp [dispatch, volume.initRoutes, Route.matchesRequest, httputils.NewGetRoute,
      httputils.NewPostRoute, httputils.NewDeleteRoute, Route.Queries, h]

/-- A POST to `/volumes/{service}/{volumeID}` carrying exactly one of the four
volume actions selects the route that requires that action and no other. -/
theorem dispatch_post_volume (req : Request) (q : String)
    (hq : q ∈ volumeActions) (hm : req.method = Method.POST)
    (hp : req.path = "/volumes/{service}/{volumeID}")
    (hone : ∀ p ∈ volumeActions, p ∈ req.queries ↔ p = q) :
    ∃ r, dispatch volume.initRoutes req = some r ∧ r.queries = [q] ∧
      (q, r.name) ∈ volumeActionRoutes := by
  obtain ⟨m, p, qs⟩ := req
  simp only at hm hp hone
  subst hm hp
  have hcopy := hone "copy" (by decide)
  have hsnap := hone "snapshot" (by decide)
  have hatt := hone "attach" (by decide)
  have hdet := hone "detach" (by decide)
  simp only [volumeActions, List.mem_cons, List.mem_singleton, List.not_mem_nil,
    or_false] at hq
  rcases hq with rfl | rfl | rfl | rfl
  · have h1 : "copy" ∈ qs := hcopy.mpr rfl
    simp [dispatch, volume.initRoutes, Route.matchesRequest, httputils.NewGetRoute,
      httputils.NewPostRoute, httputils.NewDeleteRoute, Route.Queries, h1,
      volumeActionRoutes]
  · have h1 : "snapshot" ∈ qs := hsnap.mpr rfl
    have h2 : "copy" ∉ qs := fun h => absurd (hcopy.mp h) (by decide)
    simp [dispatch, volume.initRoutes, Route.matchesRequest, httputils.NewGetRoute,
      httputils.NewPostRoute, httputils.NewDeleteRoute, Route.Queries, h1, h2,
      volumeActionRoutes]
  · have h1 : "attach" ∈ qs := hatt.mpr rfl
    have h2 : "copy" ∉ qs := fun h => absurd (hcopy.mp h) (by decide)
    have h3 : "snapshot" ∉ qs := fun h => absurd (hsnap.mp h) (by decide)
    simp [dispatch, volume.initRoutes, Route.matchesRequest, httputils.NewGetRoute,
      httputils.NewPostRoute, httputils.NewDeleteRoute, Route.Queries, h1, h2, h3,
      volumeActionRoutes]
  · have h1 : "detach" ∈ qs := hdet.mpr rfl
    have h2 : "copy" ∉ qs := fun h => absurd (hcopy.mp h) (by decide)
    have h3 : "snapshot" ∉ qs := fun h => absurd (hsnap.mp h) (by decide)
    have h4 : "attach" ∉ qs := fun h => absurd (hatt.mp h) (by decide)
    simp [dispatch, volume.initRoutes, Route.matchesRequest, httputils.NewGetRoute,
      httputils.NewPostRoute, httputils.NewDeleteRoute, Route.Queries, h1, h2, h3,
      h4, volumeActionRoutes]

/-- C4: dispatching over the declared route list by first match in declaration
order, (1) the selected route matches the request and no matching route
requires more query parameters, and some route is selected whenever some route
matches; (2) a POST to `/volumes/{service}` selects `volumesDetachForService`
when `detach` is present and `volumeCreate` when it is absent; (3) a POST to
`/volumes/{service}/{volumeID}` carrying exactly one of `copy`, `snapshot`,
`attach`, `detach` selects the route that requires that parameter and no
other. -/
theorem C4_dispatch_most_specific (req : Request) :
    (∀ r, dispatch volume.initRoutes req = some r →
      r ∈ volume.initRoutes ∧ r.matchesRequest req = true ∧
      ∀ r2 ∈ volume.initRoutes, r2.matchesRequest req = true →
        r2.queries.length ≤ r.queries.length) ∧
    (∀ r ∈ volume.initRoutes, r.matchesRequest req = true →
      ∃ r1, dispatch volume.initRoutes req = some r1) ∧
    (req.method = Method.POST → req.path = "/volumes/{service}" →
      ∃ r, dispatch volume.initRoutes req = some r ∧
        r.name = (if "detach" ∈ req.queries then "volumesDetachForService"
                  else "volumeCreate") ∧
        r.queries = (if "detach" ∈ req.queries then ["detach"] else [])) ∧
    (∀ q ∈ volumeActions, req.method = Method.POST →
      req.path = "/volumes/{service}/{volumeID}" →
      (∀ p ∈ volumeActions, p ∈ req.queries ↔ p = q) →
      ∃ r, dispatch volume.initRoutes req = some r ∧ r.queries = [q] ∧
        (q, r.name) ∈ volumeActionRoutes) :=
  ⟨fun r hd => dispatch_most_specific _ initRoutes_declaredBySpecificity req r hd,
   fun r hr hm => dispatch_isSome _ req r hr hm,
   fun hm hp => dispatch_post_service req hm hp,
   fun q hq hm hp hone => dispatch_post_volume req q hq hm hp hone⟩

/-- Witness of C4 at `POST /volumes/{service}/{volumeID}?attach`: the route
selected is `volumeAttach`. -/
theorem C4_dispatch_most_specific_witness :
    ∃ r, dispatch volume.initRoutes attachRequest = some r ∧
      r.queries = ["attach"] ∧ ("attach", r.name) ∈ volumeActionRoutes :=
  (C4_dispatch_most_specific attachRequest).2.2.2 "attach" (by decide)
    (by decide) (by decide) (by decide)

/-! ## Construction failure -/

/-- C5: for every configuration for which `newServer` fails with an error `e`,
`Serve` returns no server (a nil closer) and an error channel from which exactly
one value, `e` itself, is received, after which the channel is closed and
nothing more happens on it; no listener goroutine and no coordination goroutine
is started. -/
theorem C5_Serve_construction_failure (d : Deps) (config : Option Config)
    (e : String) (h : newServer d config = NewServerResult.failed e) :
    ∃ f f1 f2, Serve d config = ServeResult.failed f ∧
      (Serve d config).closer = none ∧
      (Serve d config).listenerTasks = 0 ∧
      (Serve d config).coordinationTasks = 0 ∧
      f.received = [] ∧ f.closed = false ∧
      f.step = some f1 ∧ f1.received = [e] ∧ f1.closed = false ∧
      f1.step = some f2 ∧ f2.received = [e] ∧ f2.closed = true ∧
      f2.step = none := by
  refine ⟨{ err := e, pc := SenderPc.sending, received := [], closed := false },
    { err := e, pc := SenderPc.closing, received := [e], closed := false },
    { err := e, pc := SenderPc.finished, received := [e], closed := true }, ?_⟩
  simp [Serve, h, ServeResult.closer, ServeResult.listenerTasks,
    ServeResult.coordinationTasks, FailedServe.step]

/-- Witness of C5: endpoint initialisation fails because the address is in
use. -/
theorem C5_Serve_construction_failure_witness :
    newServer failingDeps (some sampleConfig) =
      NewServerResult.failed
        "listen tcp 127.0.0.1:7979: bind: address already in use" ∧
    ∃ f f1 f2, Serve failingDeps (some sampleConfig) = ServeResult.failed f ∧
      (Serve failingDeps (some sampleConfig)).closer = none ∧
      (Serve failingDeps (some sampleConfig)).listenerTasks = 0 ∧
      (Serve failingDeps (some sampleConfig)).coordinationTasks = 0 ∧
      f.received = [] ∧ f.closed = false ∧
      f.step = some f1 ∧
      f1.received =
        ["listen tcp 127.0.0.1:7979: bind: address already in use"] ∧
      f1.closed = false ∧
      f1.step = some f2 ∧
      f2.received =
        ["listen tcp 127.0.0.1:7979: bind: address already in use"] ∧
      f2.closed = true ∧
      f2.step = none :=
  ⟨by decide,
   C5_Serve_construction_failure failingDeps (some sampleConfig) _ (by decide)⟩

/-! ## A nil configuration -/

/-- With a nil configuration `newServer` never returns a server: it fails in
one of the two initialisers or dereferences the nil configuration. -/
theorem newServer_nil_config (d : Deps) (s : server) :
    newServer d none ≠ NewServerResult.ok s := by
  unfold newServer
  simp only [server.fresh]
  split
  · simp
  · split <;> simp

/-- A started server holds the configuration `Serve` was given. -/
theorem Serve_started_config (d : Deps) (config : Option Config) (s : server)
    (h : Serve d config = ServeResult.started s) : s.config = config := by
  unfold Serve at h
  cases hn : newServer d config with
  | failed err => simp [hn] at h
  | nilDereference => simp [hn] at h
  | ok s0 =>
    simp only [hn, ServeResult.started.injEq] at h
    subst h
    show s0.config = config
    unfold newServer at hn
    simp only [server.fresh] at hn
    split at hn
    · simp at hn
    · split at hn
      · simp at hn
      · split at hn
        · simp at hn
        · split at hn
          · simp at hn
          · simp only [NewServerResult.ok.injEq] at hn
            subst hn
            unfold server.initLogging
            split <;> rfl

/-- C10, evaluation of the code at a nil configuration: `libstorage.Serve`
hands the nil argument unchanged to `server.Serve` and `newServer`; no default
configuration is created, no server is ever started from it, and when both
initialisers succeed the read of the logging keys dereferences nil.
`libstorage.Dial` hands the nil argument unchanged to `client.Dial`. -/
theorem C10_nil_config_not_defaulted :
    (∀ d : Deps, libstorage.Serve d none = Serve d none) ∧
    (∀ (d : Deps) (s : server), libstorage.Serve d none ≠ ServeResult.started s) ∧
    libstorage.Serve (sampleDeps [tcpEndpoint]) none = ServeResult.panicked ∧
    (∀ (d : Deps) (config : Option Config) (s : server),
      libstorage.Serve d config = ServeResult.started s → s.config = config) ∧
    (∀ (Client : Type) (clientDial : Option Config → Client),
      libstorage.Dial clientDial none = clientDial none) := by
  refine ⟨fun _ => rfl, ?_, by decide, ?_, fun _ _ => rfl⟩
  · intro d s h
    unfold libstorage.Serve Serve at h
    cases hn : newServer d none with
    | failed err => simp [hn] at h
    | nilDereference => simp [hn] at h
    | ok s0 => exact newServer_nil_config d s0 hn
  · intro d config s h
    exact Serve_started_config d config s h

/-! ## `Close` -/

/-- The loop of `close` calls `Close` on every endpoint, in order. -/
theorem closeEndpoints_fst (l : List HTTPServer) (fx : List String × List String) :
    (closeEndpoints l fx).1 = l.map (fun srv => srv.Close.1) := by
  induction l generalizing fx with
  | nil => rfl
  | cons srv rest ih => simp [closeEndpoints, ih]

/-- The loop of `close` keeps what was logged before it. -/
theorem closeEndpoints_log_mono (l : List HTTPServer)
    (fx : List String × List String) (e : String) (he : e ∈ fx.1) :
    e ∈ (closeEndpoints l fx).2.1 := by
  induction l generalizing fx with
  | nil => exact he
  | cons srv rest ih =>
    simp only [closeEndpoints]
    apply ih
    cases hc : srv.Close.2 with
    | none => simpa using he
    | some err => simp [he]

/-- The loop of `close` logs the close error of every failing endpoint. -/
theorem closeEndpoints_logs (l : List HTTPServer)
    (fx : List String × List String) (srv : HTTPServer) (hsrv : srv ∈ l)
    (e : String) (he : srv.closeErr = some e) :
    e ∈ (closeEndpoints l fx).2.1 := by
  induction l generalizing fx with
  | nil => simp at hsrv
  | cons a rest ih =>
    simp only [closeEndpoints]
    rcases List.mem_cons.mp hsrv with rfl | hmem
    · apply closeEndpoints_log_mono
      have : srv.Close.2 = some e := he
      simp [this]
    · exact ih _ hmem

/-- Closing a sink keeps what was logged before it. -/
theorem closeSink_log_mono (k : Option LogSink) (logged : List String)
    (e : String) (he : e ∈ logged) : e ∈ (closeSink k logged).2 := by
  cases k with
  | none => exact he
  | some k =>
    cases hk : k.closeErr with
    | none => simpa [closeSink, hk] using he
    | some err => simp [closeSink, hk, he]

/-- The method `close` returns nil whatever its steps returned. -/
theorem close_returns_nil (s : server) : s.close.2 = none := by
  rfl

/-- On a server that awaits it, `Close` returns nil and leaves the closed
state. -/
theorem Close_of_awaitsClose (s : server) (p : Bool)
    (h : s.awaitsClose p = true) : s.Close p = some (s.closed, none) := by
  simp only [server.awaitsClose, Bool.and_eq_true, beq_iff_eq, Bool.or_eq_true,
    Bool.not_eq_true'] at h
  obtain ⟨⟨hidle, hcoord⟩, hquiet⟩ := h
  have hpick : (p && !s.srvErrs.isEmpty) = false := by
    rcases hquiet with hq | hq
    · simp [hq]
    · simp [hq]
  simp [server.Close, hidle, step, handshake, run, server.close, hcoord, hpick,
    server.closed]

/-- Once `closeOnce` is done, `Close` returns nil and changes nothing. -/
theorem Close_of_finished (s : server) (p : Bool) (err : Option String)
    (h : s.closer = OncePc.finished err) : s.Close p = some (s, none) := by
  simp [server.Close, h]

/-- Any number of later calls return nil and leave the state as it is. -/
theorem closeMany_of_finished (s : server) (ps : List Bool) (err : Option String)
    (h : s.closer = OncePc.finished err) :
    closeMany ps s = some (s, List.replicate ps.length none) := by
  induction ps with
  | nil => rfl
  | cons p ps ih =>
    simp [closeMany, Close_of_finished s p err h, ih, List.replicate_succ]

/-- A server returned by `newServer` has a `closeOnce` that has not run. -/
theorem newServer_ok_idle (d : Deps) (config : Option Config) (s : server)
    (hs : newServer d config = NewServerResult.ok s) :
    s.closer = OncePc.idle := by
  unfold newServer at hs
  simp only [server.fresh] at hs
  split at hs
  · simp at hs
  · split at hs
    · simp at hs
    · split at hs
      · simp at hs
      · split at hs
        · simp at hs
        · simp only [NewServerResult.ok.injEq] at hs
          subst hs
          unfold server.initLogging
          split <;> rfl

/-- The server `Serve` has just started awaits its `Close`. -/
theorem Serve_started_awaitsClose (d : Deps) (config : Option Config)
    (s0 : server) (p : Bool) (h : Serve d config = ServeResult.started s0) :
    s0.awaitsClose p = true := by
  unfold Serve at h
  split at h
  · simp at h
  · simp at h
  · rename_i s hs
    have hidle := newServer_ok_idle d config s hs
    simp only [ServeResult.started.injEq] at h
    subst h
    simp [server.awaitsClose, hidle]

/-- A handshake that ends leaves `closeOnce` done. -/
theorem handshake_finished (p : Bool) (s t : server)
    (h : handshake p s = some t) : ∃ err, t.closer = OncePc.finished err := by
  unfold handshake at h
  split at h
  · rename_i e hc hk
    split at h
    · simp at h
    · simp only [run, step, hc, hk] at h
      simp only [Option.some.injEq] at h
      exact ⟨e, by rw [← h]⟩
  · rename_i e hc hk
    simp only [run, step, hc, hk] at h
    simp only [Option.some.injEq] at h
    exact ⟨e, by rw [← h]⟩
  · rename_i e hc hk
    simp only [run, step, hc, hk] at h
    simp only [Option.some.injEq] at h
    exact ⟨e, by rw [← h]⟩
  · simp at h

/-- A `Close` that returns leaves `closeOnce` done. -/
theorem Close_finished (p : Bool) (s t : server) (r : Option String)
    (h : s.Close p = some (t, r)) : ∃ err, t.closer = OncePc.finished err := by
  unfold server.Close at h
  split at h
  · rename_i e he
    simp only [Option.some.injEq, Prod.mk.injEq] at h
    exact ⟨e, by rw [← h.1]; exact he⟩
  · split at h
    · simp at h
    · split at h
      · simp at h
      · rename_i s2 hs2
        simp only [Option.some.injEq, Prod.mk.injEq] at h
        rw [← h.1]
        exact handshake_finished p _ _ hs2
  · split at h
    · simp at h
    · rename_i s2 hs2
      simp only [Option.some.injEq, Prod.mk.injEq] at h
      rw [← h.1]
      exact handshake_finished p _ _ hs2

/-- The loop of `close` removes the socket file of every unix endpoint, in
order, and of no other endpoint. -/
theorem closeEndpoints_removed (l : List HTTPServer)
    (fx : List String × List String) :
    (closeEndpoints l fx).2.2 = fx.2 ++ unixSockets l := by
  induction l generalizing fx with
  | nil => simp [closeEndpoints, unixSockets]
  | cons srv rest ih =>
    simp only [closeEndpoints]
    rw [ih]
    by_cases hu : (srv.network == "unix") = true
    · simp [unixSockets, hu, List.filter_cons]
    · simp only [Bool.not_eq_true] at hu
      simp [unixSockets, hu, List.filter_cons]

/-- The loop of `close` logs exactly the close errors of the endpoints, in
order. -/
theorem closeEndpoints_log (l : List HTTPServer)
    (fx : List String × List String) :
    (closeEndpoints l fx).2.1 = fx.1 ++ l.filterMap HTTPServer.closeErr := by
  induction l generalizing fx with
  | nil => simp [closeEndpoints]
  | cons srv rest ih =>
    simp only [closeEndpoints]
    rw [ih]
    cases hc : srv.closeErr with
    | none => simp [HTTPServer.Close, hc, List.filterMap_cons]
    | some err => simp [HTTPServer.Close, hc, List.filterMap_cons]

/-- Closing a sink calls its `Close` once and logs its error. -/
theorem closeSink_eq (k : Option LogSink) (logged : List String) :
    closeSink k logged = (k.map LogSink.closedOnce, logged ++ sinkError k) := by
  cases k with
  | none => simp [closeSink, sinkError]
  | some k =>
    cases hk : k.closeErr with
    | none => simp [closeSink, sinkError, hk, LogSink.closedOnce]
    | some err => simp [closeSink, sinkError, hk, LogSink.closedOnce]

/-- On a server that awaits it, the first `Close()` returns nil and runs the
teardown body once: every endpoint has its `Close` called once, the socket file
of every unix endpoint is removed, both log sinks are closed once, the close
errors are logged, and the handshake completes (`errs` closed, the coordination
goroutine ended, `closeOnce` done). Every later call returns nil and changes
nothing. -/
theorem Close_once_of_awaitsClose (s : server) (p : Bool) (ps : List Bool)
    (h : s.awaitsClose p = true) :
    s.Close p = some (s.closed, none) ∧
    s.closed.teardowns = s.teardowns + 1 ∧
    s.closed.servers = s.servers.map (fun srv => srv.Close.1) ∧
    s.closed.removed = s.removed ++ unixSockets s.servers ∧
    s.closed.stdOut = s.stdOut.map LogSink.closedOnce ∧
    s.closed.stdErr = s.stdErr.map LogSink.closedOnce ∧
    s.closed.errorLog =
      s.errorLog ++ s.servers.filterMap HTTPServer.closeErr ++
        sinkError s.stdOut ++ sinkError s.stdErr ∧
    s.closed.errsClosed = true ∧
    s.closed.coord = CoordPc.finished ∧
    s.closed.closer = OncePc.finished none ∧
    (∀ q, s.closed.Close q = some (s.closed, none)) ∧
    closeMany (p :: ps) s =
      some (s.closed, List.replicate (ps.length + 1) none) := by
  have hfin : s.closed.closer = OncePc.finished none := rfl
  refine ⟨Close_of_awaitsClose s p h, rfl, closeEndpoints_fst _ _, ?_, ?_, ?_, ?_,
    rfl, rfl, rfl, ?_, ?_⟩
  · exact closeEndpoints_removed _ _
  · show (closeSink s.stdOut _).1 = _
    rw [closeSink_eq]
  · show (closeSink s.stdErr _).1 = _
    rw [closeSink_eq]
  · show (closeSink s.stdErr (closeSink s.stdOut
      (closeEndpoints s.servers (s.errorLog, s.removed)).2.1).2).2 = _
    rw [closeSink_eq, closeSink_eq, closeEndpoints_log]
  · intro q
    exact Close_of_finished _ q _ hfin
  · simp [closeMany, Close_of_awaitsClose s p h,
      closeMany_of_finished s.closed ps none hfin, List.replicate_succ]

/-- C7 as stated fails: the unix endpoint of this server fails to close, and
the first `Close()` still returns nil. -/
theorem C7_failed_endpoint_close_counterexample :
    ¬ ((∃ srv ∈ twoEndpointServer.servers, srv.closeErr ≠ none) →
        ∃ e, (twoEndpointServer.Close false).map Prod.snd = some (some e)) := by
  intro hclaim
  obtain ⟨e, he⟩ := hclaim ⟨unixEndpoint, by decide, by decide⟩
  have hnil : (twoEndpointServer.Close false).map Prod.snd = some none := by
    decide
  rw [hnil] at he
  simp at he

/-- The close error of a log sink is logged. -/
theorem closeSink_logs (k : LogSink) (logged : List String) (e : String)
    (he : k.closeErr = some e) : e ∈ (closeSink (some k) logged).2 := by
  simp [closeSink, he]

/-- All servers that await a close are closed by `closeAllServers`, which
reports no error. -/
theorem closeAllServers_of_awaitsClose (l : List server) (p : Bool)
    (h : ∀ s ∈ l, s.awaitsClose p = true) :
    closeAllServers p l = some (l.map server.closed, true) := by
  induction l with
  | nil => rfl
  | cons s rest ih =>
    have hs := Close_of_awaitsClose s p (h s (List.mem_cons_self _ _))
    have hrest := ih (fun t ht => h t (List.mem_cons_of_mem _ ht))
    simp [closeAllServers, hs, hrest]

/-- Whatever `Close` returns is nil. -/
theorem Close_result_nil (s t : server) (p : Bool) (r : Option String)
    (h : s.Close p = some (t, r)) : r = none := by
  unfold server.Close at h
  split at h
  · simp only [Option.some.injEq, Prod.mk.injEq] at h
    exact h.2.symm
  · split at h
    · simp at h
    · split at h
      · simp at h
      · simp only [Option.some.injEq, Prod.mk.injEq] at h
        rw [← h.2]
        rfl
  · split at h
    · simp at h
    · simp only [Option.some.injEq, Prod.mk.injEq] at h
      exact h.2.symm

/-- C7 amended: `Close()` returns nil whether or not a teardown step failed.
On every running server the first `Close()` returns nil; a failing endpoint or
log-sink close is logged and does not stop the remaining steps (every endpoint
has its `Close` called); `closeAllServers` over such servers reports no error;
and from any state whatever, a `Close()` that returns, returns nil. -/
theorem C7_Close_returns_nil (l : List server) (p : Bool)
    (h : ∀ s ∈ l, s.awaitsClose p = true) :
    (∀ (s t : server) (q : Bool) (r : Option String),
      s.Close q = some (t, r) → r = none) ∧
    (∀ s ∈ l, s.Close p = some (s.closed, none) ∧
      s.closed.servers = s.servers.map (fun srv => srv.Close.1) ∧
      (∀ srv ∈ s.servers, ∀ e, srv.closeErr = some e → e ∈ s.closed.errorLog) ∧
      (∀ k e, (s.stdOut = some k ∨ s.stdErr = some k) → k.closeErr = some e →
        e ∈ s.closed.errorLog)) ∧
    closeAllServers p l = some (l.map server.closed, true) := by
  refine ⟨fun s t q r hq => Close_result_nil s t q r hq, ?_,
    closeAllServers_of_awaitsClose l p h⟩
  intro s hs
  refine ⟨Close_of_awaitsClose s p (h s hs), closeEndpoints_fst _ _, ?_, ?_⟩
  · intro srv hsrv e he
    show e ∈ (closeSink s.stdErr (closeSink s.stdOut
      (closeEndpoints s.servers (s.errorLog, s.removed)).2.1).2).2
    apply closeSink_log_mono
    apply closeSink_log_mono
    exact closeEndpoints_logs _ _ srv hsrv e he
  · intro k e hk he
    show e ∈ (closeSink s.stdErr (closeSink s.stdOut
      (closeEndpoints s.servers (s.errorLog, s.removed)).2.1).2).2
    rcases hk with hk | hk
    · apply closeSink_log_mono
      rw [hk]
      exact closeSink_logs k _ e he
    · rw [hk]
      exact closeSink_logs k _ e he

/-- Witness of C7 amended: a server whose unix endpoint fails to close. -/
theorem C7_Close_returns_nil_witness :
    twoEndpointServer.Close false = some (twoEndpointServer.closed, none) ∧
    twoEndpointServer.closed.errorLog =
      ["close unix /tmp/libstorage.sock: bad file descriptor"] ∧
    closeAllServers false [twoEndpointServer] =
      some ([twoEndpointServer.closed], true) :=
  ⟨((C7_Close_returns_nil [twoEndpointServer] false (by decide)).2.1
      twoEndpointServer (by decide)).1,
   by decide,
   (C7_Close_returns_nil [twoEndpointServer] false (by decide)).2.2⟩

/-! ## The close handshake after a listener error -/

/-- A blocked `Close` stays blocked: no action changes `closer`, and the
coordination goroutine never comes back to its `select`. -/
theorem closeBlocked_step (ev : Event) (s t : server)
    (hb : s.closeBlocked = true) (h : step ev s = some t) :
    t.closeBlocked = true ∧ t.closer = s.closer := by
  obtain ⟨err, hk, hc⟩ : ∃ err, s.closer = OncePc.sendingCloseSignal err ∧
      s.coord ≠ CoordPc.selecting := by
    unfold server.closeBlocked at hb
    split at hb
    · simp at hb
    · rename_i e hk hne
      exact ⟨e, hk, fun hsel => hne hsel⟩
    · simp at hb
  cases ev with
  | listenerEnds i e =>
    simp only [step] at h
    split at h
    · simp only [Option.some.injEq] at h
      subst h
      simpa [server.closeBlocked] using hb
    · simp at h
  | listenerSends i =>
    simp only [step] at h
    split at h
    · split at h
      · simp only [Option.some.injEq] at h
        subst h
        simpa [server.closeBlocked] using hb
      · simp at h
    · simp at h
  | coordRecvErr =>
    simp only [step] at h
    split at h
    · rename_i hsel _
      exact absurd hsel hc
    · simp at h
  | coordRecvClose =>
    simp only [step] at h
    split at h
    · rename_i hsel _
      exact absurd hsel hc
    · simp at h
  | coordSends =>
    simp only [step] at h
    split at h
    · split at h
      · simp only [Option.some.injEq] at h
        subst h
        simp [server.closeBlocked, hk]
      · simp at h
    · simp at h
  | coordHandsOver =>
    simp only [step] at h
    split at h
    · simp only [Option.some.injEq] at h
      subst h
      simp [server.closeBlocked, hk]
    · simp at h
  | coordCloses =>
    simp only [step] at h
    split at h
    · simp only [Option.some.injEq] at h
      subst h
      simp [server.closeBlocked, hk]
    · simp at h
  | coordAcks =>
    simp only [step] at h
    split at h
    · rename_i _ hk2
      rw [hk] at hk2
      simp at hk2
    · simp at h
  | closeCalled =>
    simp only [step] at h
    split at h
    · rename_i hk2
      rw [hk] at hk2
      simp at hk2
    · simp at h
  | readerRecv =>
    simp only [step] at h
    split at h
    · simp only [Option.some.injEq] at h
      subst h
      simpa [server.closeBlocked] using hb
    · simp at h

/-- A blocked `Close` stays blocked along every sequence of actions. -/
theorem closeBlocked_run (evs : List Event) (s t : server)
    (hb : s.closeBlocked = true) (h : run evs s = some t) :
    t.closeBlocked = true ∧ t.closer = s.closer := by
  induction evs generalizing s with
  | nil =>
    simp only [run, Option.some.injEq] at h
    subst h
    exact ⟨hb, rfl⟩
  | cons ev evs ih =>
    simp only [run] at h
    split at h
    · rename_i s1 hs1
      obtain ⟨hb1, hk1⟩ := closeBlocked_step ev s s1 hb hs1
      obtain ⟨hb2, hk2⟩ := ih s1 hb1 h
      exact ⟨hb2, hk2.trans hk1⟩
    · simp at h

/-- On every started server with at least one endpoint, a listener failure
followed by `Close()` reaches a state where `Close()` is blocked. -/
theorem blocked_reachable (d : Deps) (config : Option Config) (s0 : server)
    (h : Serve d config = ServeResult.started s0) (hne : s0.servers ≠ [])
    (e : String) (he : stringsContains e closedNetworkText = false) :
    ∃ s, run [Event.listenerEnds 0 (some e), Event.listenerSends 0,
        Event.coordRecvErr, Event.coordSends, Event.coordCloses,
        Event.closeCalled] s0 = some s ∧
      s.errsSent = [e] ∧ s.errsClosed = true ∧ s.closeBlocked = true := by
  unfold Serve at h
  split at h
  · simp at h
  · simp at h
  · rename_i s hs
    have hidle := newServer_ok_idle d config s hs
    simp only [ServeResult.started.injEq] at h
    subst h
    simp only at hne
    cases hsv : s.servers with
    | nil => exact absurd hsv hne
    | cons a rest =>
      simp [run, step, hsv, listenerAfterServe, he, hidle, server.close,
        server.closeBlocked]

/-- C8, evaluation of the code at the failing input: on the server `Serve`
starts for one endpoint, the listener fails, the coordination goroutine takes
the error from `srvErrs`, forwards it and closes `errs`; `Close()` is then
called. The state reached has `Close()` blocked in `s.closeSignal <- 1` with
the coordination goroutine past its `select`; whatever happens next `Close()`
stays blocked there, so it never gets its acknowledgement and never returns.
The same state is reached on every started server with at least one endpoint
and for every listener error that is forwarded. -/
theorem C8_Close_blocked_after_listener_error :
    Serve (sampleDeps [tcpEndpoint]) (some sampleConfig) =
      ServeResult.started oneEndpointServer ∧
    run (failThenClose.take 5) oneEndpointServer = some erroredServer ∧
    (∀ p, erroredServer.Close p = none) ∧
    run failThenClose oneEndpointServer = some blockedServer ∧
    Reachable oneEndpointServer blockedServer ∧
    blockedServer.closeBlocked = true ∧
    blockedServer.errsClosed = true ∧
    (∀ evs t, run evs blockedServer = some t →
      t.closeBlocked = true ∧ t.closer = OncePc.sendingCloseSignal none) ∧
    (∀ (d : Deps) (config : Option Config) (s0 : server) (e : String),
      Serve d config = ServeResult.started s0 → s0.servers ≠ [] →
      stringsContains e closedNetworkText = false →
      ∃ s, Reachable s0 s ∧ s.errsClosed = true ∧ s.closeBlocked = true ∧
        ∀ evs t, run evs s = some t → t.closeBlocked = true) := by
  refine ⟨by decide, by decide, ?_, by decide, ⟨failThenClose, by decide⟩,
    by decide, by decide, ?_, ?_⟩
  · intro p
    cases p <;> decide
  · intro evs t h
    exact closeBlocked_run evs blockedServer t (by decide) h
  · intro d config s0 e hs0 hne he
    obtain ⟨s, hrun, _, hcl, hb⟩ := blocked_reachable d config s0 hs0 hne e he
    exact ⟨s, ⟨_, hrun⟩, hcl, hb,
      fun evs t ht => (closeBlocked_run evs s t hb ht).1⟩

/-- A blocked `Close` holds `closeOnce`: no other call of `Close` returns. -/
theorem Close_none_of_closeBlocked (s : server) (q : Bool)
    (hb : s.closeBlocked = true) : s.Close q = none := by
  unfold server.closeBlocked at hb
  split at hb
  · simp at hb
  · rename_i e hk hne
    have hh : handshake q s = none := by
      unfold handshake
      split
      · rename_i hk2 hc2
        exact absurd hc2 hne
      · rename_i hk2 _
        rw [hk] at hk2
        simp at hk2
      · rename_i hk2 _
        rw [hk] at hk2
        simp at hk2
      · rfl
    simp [server.Close, hk, hh]
  · simp at hb

/-- A sequence of `Close` calls whose first call never returns never ends. -/
theorem closeMany_none (s : server) (p : Bool) (ps : List Bool)
    (h : s.Close p = none) : closeMany (p :: ps) s = none := by
  simp [closeMany, h]

/-- C6, evaluation of the code at the failing input: `Serve` starts a server
with a TCP and a unix endpoint and two log sinks; the TCP listener fails, the
coordination goroutine forwards the error and closes `errs`, the unix endpoint
is still serving. On this running server no `Close()` returns, and so no
sequence of two or more calls does: the first call runs `s.close()` once and
then blocks for ever in `s.closeSignal <- 1`, `closeOnce` never becomes done,
and under every interleaving every later call waits for it and never returns
nil. The same happens when the error is only queued in `srvErrs` and the
`select` takes it. This is the handshake defect of C8. Where the handshake can
complete the guard does what is asked: on every server that awaits its close,
and `Serve` starts every server so, the first call returns nil and runs the
whole teardown body once (every endpoint closed, every unix socket file
removed, both sinks closed, errors logged, handshake done), every later call
changes nothing and returns nil, and after any `Close()` that returned, from
whatever state, every further call returns nil and changes nothing. -/
theorem C6_Close_never_returns_after_listener_error :
    Serve loggingDeps (some loggingConfig) = ServeResult.started loggingServer ∧
    run (failThenClose.take 5) loggingServer = some halfServingServer ∧
    halfServingServer.listeners = [ListenerPc.finished, ListenerPc.serving] ∧
    halfServingServer.closer = OncePc.idle ∧
    (∀ (p : Bool) (ps : List Bool),
      halfServingServer.Close p = none ∧
      closeMany (p :: ps) halfServingServer = none) ∧
    run failThenClose loggingServer = some stuckServer ∧
    stuckServer.teardowns = 1 ∧
    (∀ (evs : List Event) (t : server), run evs stuckServer = some t →
      t.closer = OncePc.sendingCloseSignal none ∧ ∀ q, t.Close q = none) ∧
    (∃ s, run (failThenClose.take 2) loggingServer = some s ∧
      s.coord = CoordPc.selecting ∧ s.closer = OncePc.idle ∧
      ∀ ps, closeMany (true :: ps) s = none) ∧
    (∀ (d : Deps) (config : Option Config) (s0 : server) (p : Bool),
      Serve d config = ServeResult.started s0 → s0.awaitsClose p = true) ∧
    (∀ (s : server) (p : Bool) (ps : List Bool), s.awaitsClose p = true →
      s.Close p = some (s.closed, none) ∧
      s.closed.teardowns = s.teardowns + 1 ∧
      s.closed.servers = s.servers.map (fun srv => srv.Close.1) ∧
      s.closed.removed = s.removed ++ unixSockets s.servers ∧
      s.closed.stdOut = s.stdOut.map LogSink.closedOnce ∧
      s.closed.stdErr = s.stdErr.map LogSink.closedOnce ∧
      s.closed.errorLog =
        s.errorLog ++ s.servers.filterMap HTTPServer.closeErr ++
          sinkError s.stdOut ++ sinkError s.stdErr ∧
      s.closed.errsClosed = true ∧
      s.closed.coord = CoordPc.finished ∧
      s.closed.closer = OncePc.finished none ∧
      (∀ q, s.closed.Close q = some (s.closed, none)) ∧
      closeMany (p :: ps) s =
        some (s.closed, List.replicate (ps.length + 1) none)) ∧
    (loggingServer.Close false).map Prod.fst =
      some { stuckServer with
        errsBuf := [], errsSent := [],
        listeners := [ListenerPc.serving, ListenerPc.serving],
        coord := CoordPc.finished, closer := OncePc.finished none } ∧
    (∀ (t t1 : server) (q : Bool) (r : Option String),
      t.Close q = some (t1, r) → ∀ q2, t1.Close q2 = some (t1, none)) := by
  refine ⟨by decide, by decide, by decide, by decide, ?_, by decide, by decide,
    ?_, ?_, ?_, ?_, by decide, ?_⟩
  · intro p ps
    have hnone : halfServingServer.Close p = none := by
      cases p <;> decide
    exact ⟨hnone, closeMany_none _ p ps hnone⟩
  · intro evs t ht
    obtain ⟨hb, hk⟩ := closeBlocked_run evs stuckServer t (by decide) ht
    exact ⟨hk, fun q => Close_none_of_closeBlocked t q hb⟩
  · refine ⟨{ loggingServer with
        srvErrs := [acceptFailure],
        listeners := [ListenerPc.finished, ListenerPc.serving] },
      by decide, rfl, rfl, ?_⟩
    intro ps
    exact closeMany_none _ true ps (by decide)
  · intro d config s0 p hs0
    exact Serve_started_awaitsClose d config s0 p hs0
  · intro s p ps h
    exact Close_once_of_awaitsClose s p ps h
  · intro t t1 q r ht q2
    obtain ⟨err, herr⟩ := Close_finished q t t1 r ht
    exact Close_of_finished t1 q2 err herr

/-! ## The public error channel -/

/-- At most every listener has ended. -/
theorem finishedCount_le_length (l : List ListenerPc) :
    finishedCount l ≤ l.length := by
  induction l with
  | nil => simp [finishedCount]
  | cons a rest ih =>
    cases a <;> simp [finishedCount] <;> omega

/-- A listener that has not ended is not counted. -/
theorem finishedCount_lt_length (l : List ListenerPc) (i : Nat) (x : ListenerPc)
    (hx : l[i]? = some x) (hne : x ≠ ListenerPc.finished) :
    finishedCount l < l.length := by
  induction l generalizing i with
  | nil => simp at hx
  | cons a rest ih =>
    cases i with
    | zero =>
      simp only [List.getElem?_cons_zero, Option.some.injEq] at hx
      subst hx
      have := finishedCount_le_length rest
      cases a <;> simp [finishedCount] at hne ⊢ <;> omega
    | succ j =>
      simp only [List.getElem?_cons_succ] at hx
      have := ih j hx
      cases a <;> simp [finishedCount] <;> omega

/-- Ending a listener that had not ended adds one to the count. -/
theorem finishedCount_set_finished (l : List ListenerPc) (i : Nat)
    (x : ListenerPc) (hx : l[i]? = some x) (hne : x ≠ ListenerPc.finished) :
    finishedCount (l.set i ListenerPc.finished) = finishedCount l + 1 := by
  induction l generalizing i with
  | nil => simp at hx
  | cons a rest ih =>
    cases i with
    | zero =>
      simp only [List.getElem?_cons_zero, Option.some.injEq] at hx
      subst hx
      cases a <;> simp [finishedCount] at hne ⊢
    | succ j =>
      simp only [List.getElem?_cons_succ] at hx
      have := ih j hx
      cases a <;> simp [finishedCount, this]

/-- Moving a listener that had not ended never lowers the count. -/
theorem finishedCount_set_le (l : List ListenerPc) (i : Nat)
    (x y : ListenerPc) (hx : l[i]? = some x) (hne : x ≠ ListenerPc.finished) :
    finishedCount l ≤ finishedCount (l.set i y) := by
  induction l generalizing i with
  | nil => simp at hx
  | cons a rest ih =>
    cases i with
    | zero =>
      simp only [List.getElem?_cons_zero, Option.some.injEq] at hx
      subst hx
      cases a <;> cases y <;> simp [finishedCount] at hne ⊢
    | succ j =>
      simp only [List.getElem?_cons_succ] at hx
      have := ih j hx
      cases a <;> simp [finishedCount, this]

/-- The listener body forwards exactly the non-nil errors whose text does not
contain the closed-connection text. -/
theorem listenerAfterServe_sending (err : Option String) (e : String)
    (h : listenerAfterServe err = ListenerPc.sending e) :
    err = some e ∧ stringsContains e closedNetworkText = false := by
  unfold listenerAfterServe at h
  split at h
  · simp at h
  · rename_i e1
    by_cases hc : stringsContains e1 closedNetworkText = true
    · simp [hc] at h
    · simp only [Bool.not_eq_true] at hc
      simp only [hc, Bool.not_false, if_true, ListenerPc.sending.injEq] at h
      subst h
      exact ⟨rfl, hc⟩

/-- The server `Serve` starts satisfies the invariant. -/
theorem Inv_started (d : Deps) (config : Option Config) (s0 : server)
    (h : Serve d config = ServeResult.started s0) : Inv s0 := by
  unfold Serve at h
  split at h
  · simp at h
  · simp at h
  · rename_i s hs
    simp only [ServeResult.started.injEq] at h
    subst h
    have hidle : s.closer = OncePc.idle := newServer_ok_idle d config s hs
    have hcount : ∀ l : List HTTPServer,
        finishedCount (l.map (fun _ => ListenerPc.serving)) = 0 := by
      intro l
      induction l with
      | nil => rfl
      | cons a rest ih => simpa [finishedCount] using ih
    refine ⟨by simp, by simp, by simp, by simp, ?_, by simp, ?_⟩
    · intro i e hi
      simp only [List.getElem?_map] at hi
      cases hget : s.servers[i]? with
      | none => simp [hget] at hi
      | some x => simp [hget] at hi
    · simp [coordPhase, hidle, OncePc.beforeSignal]

/-- Every action preserves the invariant. -/
theorem Inv_step (ev : Event) (s t : server) (hi : Inv s)
    (h : step ev s = some t) : Inv t := by
  obtain ⟨h1, h2, h3, h4, h5, h6, h7⟩ := hi
  cases ev with
  | listenerEnds i err =>
    simp only [step] at h
    split at h
    · rename_i hget
      simp only [Option.some.injEq] at h
      subst h
      refine ⟨by simpa using h1, by simpa using h2, ?_, h4, ?_, h6, ?_⟩
      · exact le_trans h3 (finishedCount_set_le _ i _ _ hget (by simp))
      · intro j e hj
        simp only [List.getElem?_set] at hj
        split at hj
        · split at hj
          · simp only [Option.some.injEq] at hj
            exact (listenerAfterServe_sending err e hj).2
          · simp at hj
        · exact h5 j e hj
      · unfold coordPhase at h7 ⊢
        simpa [sentMatches] using h7
    · simp at h
  | listenerSends i =>
    simp only [step] at h
    split at h
    · rename_i e hget
      split at h
      · simp only [Option.some.injEq] at h
        subst h
        refine ⟨by simpa using h1, by simpa using h2, ?_, ?_, ?_, h6, ?_⟩
        · have := finishedCount_set_finished _ i _ hget (by simp)
          simp only [List.length_append, List.length_singleton]
          omega
        · intro e1 he1
          simp only [List.mem_append, List.mem_singleton] at he1
          rcases he1 with he1 | rfl
          · exact h4 e1 he1
          · exact h5 i e1 hget
        · intro j e1 hj
          simp only [List.getElem?_set] at hj
          split at hj
          · split at hj
            · simp at hj
            · simp at hj
          · exact h5 j e1 hj
        · unfold coordPhase at h7 ⊢
          simpa [sentMatches] using h7
      · simp at h
    · simp at h
  | coordRecvErr =>
    simp only [step] at h
    split at h
    · rename_i e rest hc hq
      simp only [Option.some.injEq] at h
      subst h
      have hlen : 0 < s.listeners.length := by
        have := finishedCount_le_length s.listeners
        rw [hq] at h3
        simp only [List.length_cons] at h3
        omega
      refine ⟨h1, h2, ?_, ?_, h5, h6, ?_⟩
      · rw [hq] at h3
        simp only [List.length_cons] at h3
        show rest.length ≤ finishedCount s.listeners
        omega
      · intro e1 he1
        exact h4 e1 (by rw [hq]; exact List.mem_cons_of_mem _ he1)
      · unfold coordPhase at h7 ⊢
        simp only [hc] at h7
        have hok := h4 e (by rw [hq]; exact List.mem_cons_self _ _)
        simpa [hlen, hok] using h7
    · simp at h
  | coordRecvClose =>
    simp only [step] at h
    split at h
    · rename_i err hc hk
      simp only [Option.some.injEq] at h
      subst h
      refine ⟨h1, h2, h3, h4, h5, h6, ?_⟩
      unfold coordPhase at h7 ⊢
      simp only [hc] at h7
      simp [sentMatches, OncePc.isAwaiting, h7.1, h7.2.2.1]
    · simp at h
  | coordSends =>
    simp only [step] at h
    split at h
    · rename_i e hc
      split at h
      · simp only [Option.some.injEq] at h
        subst h
        unfold coordPhase at h7
        simp only [hc] at h7
        refine ⟨h1, h2, h3, h4, h5, ?_, ?_⟩
        · intro e1 he1
          simp only [h7.1, List.nil_append, List.mem_singleton] at he1
          subst he1
          exact h7.2.2.2.2.2
        · unfold coordPhase
          simp [sentMatches, h7.1, h7.2.2.1, h7.2.2.2.1]
      · simp at h
    · simp at h
  | coordHandsOver =>
    simp only [step] at h
    split at h
    · rename_i e hc hb
      simp only [Option.some.injEq] at h
      subst h
      unfold coordPhase at h7
      simp only [hc] at h7
      refine ⟨h1, h2, h3, h4, h5, ?_, ?_⟩
      · intro e1 he1
        simp only [h7.1, List.nil_append, List.mem_singleton] at he1
        subst he1
        exact h7.2.2.2.2.2
      · unfold coordPhase
        simp [sentMatches, h7.1, h7.2.2.1, h7.2.2.2.1]
    · simp at h
  | coordCloses =>
    simp only [step] at h
    split at h
    · rename_i hc
      simp only [Option.some.injEq] at h
      subst h
      unfold coordPhase at h7
      simp only [hc] at h7
      refine ⟨h1, h2, h3, h4, h5, h6, ?_⟩
      unfold coordPhase
      simpa [sentMatches] using h7.2
    · simp at h
  | coordAcks =>
    simp only [step] at h
    split at h
    · rename_i err hc hk
      simp only [Option.some.injEq] at h
      subst h
      unfold coordPhase at h7
      simp only [hc] at h7
      refine ⟨h1, h2, h3, h4, h5, h6, ?_⟩
      unfold coordPhase
      have hsent : s.errsSent = [] := by
        rcases h7.2 with hx | hx
        · simp [hk, OncePc.beforeSignal] at hx
        · exact hx.2
      simp [h7.1, hsent, OncePc.isFinished]
    · simp at h
  | closeCalled =>
    simp only [step] at h
    split at h
    · rename_i hk
      simp only [Option.some.injEq] at h
      subst h
      refine ⟨h1, h2, h3, h4, h5, h6, ?_⟩
      unfold coordPhase at h7 ⊢
      simp only [server.close]
      cases hc : s.coord with
      | notStarted => simp [hc] at h7
      | selecting =>
        simp only [hc] at h7
        obtain ⟨a, b, c, _⟩ := h7
        simp [OncePc.beforeSignal, a, b, c]
      | forwarding e =>
        simp only [hc] at h7
        obtain ⟨a, b, c, _, d, f⟩ := h7
        simp [OncePc.beforeSignal, a, b, c, d, f]
      | closing =>
        simp only [hc, sentMatches, hk, OncePc.beforeSignal, OncePc.isAwaiting] at h7
        simpa [sentMatches, OncePc.beforeSignal, OncePc.isAwaiting] using h7
      | signalling =>
        simp only [hc, sentMatches, hk, OncePc.beforeSignal, OncePc.isAwaiting] at h7
        simpa [sentMatches, OncePc.beforeSignal, OncePc.isAwaiting] using h7
      | finished =>
        simp [hc, hk, OncePc.isFinished] at h7
    · simp at h
  | readerRecv =>
    simp only [step] at h
    split at h
    · rename_i v rest hb
      simp only [Option.some.injEq] at h
      subst h
      refine ⟨h1, h2, h3, h4, h5, h6, ?_⟩
      unfold coordPhase at h7 ⊢
      cases hc : s.coord with
      | notStarted => simp [hc] at h7
      | selecting => simp [hc, hb] at h7
      | forwarding e => simp [hc, hb] at h7
      | closing => simpa [hc, sentMatches] using h7
      | signalling => simpa [hc, sentMatches] using h7
      | finished => simpa [hc] using h7
    · simp at h

/-- Every state reached from one that satisfies the invariant satisfies it. -/
theorem Inv_run (evs : List Event) (s t : server) (hi : Inv s)
    (h : run evs s = some t) : Inv t := by
  induction evs generalizing s with
  | nil =>
    simp only [run, Option.some.injEq] at h
    subst h
    exact hi
  | cons ev evs ih =>
    simp only [run] at h
    split at h
    · rename_i s1 hs1
      exact ih s1 (Inv_step ev s s1 hi hs1) h
    · simp at h

/-- Once `errs` is closed no action sends on it, and it stays closed. -/
theorem closed_step (ev : Event) (s t : server) (hi : Inv s)
    (hc : s.errsClosed = true) (h : step ev s = some t) :
    t.errsSent = s.errsSent ∧ t.errsClosed = true := by
  have hphase := hi.phase
  cases ev with
  | listenerEnds i err =>
    simp only [step] at h
    split at h
    · simp only [Option.some.injEq] at h
      subst h
      exact ⟨rfl, hc⟩
    · simp at h
  | listenerSends i =>
    simp only [step] at h
    split at h
    · split at h
      · simp only [Option.some.injEq] at h
        subst h
        exact ⟨rfl, hc⟩
      · simp at h
    · simp at h
  | coordRecvErr =>
    simp only [step] at h
    split at h
    · simp only [Option.some.injEq] at h
      subst h
      exact ⟨rfl, hc⟩
    · simp at h
  | coordRecvClose =>
    simp only [step] at h
    split at h
    · simp only [Option.some.injEq] at h
      subst h
      exact ⟨rfl, hc⟩
    · simp at h
  | coordSends =>
    simp only [step] at h
    split at h
    · rename_i e hco
      unfold coordPhase at hphase
      simp only [hco] at hphase
      rw [hphase.2.2.1] at hc
      simp at hc
    · simp at h
  | coordHandsOver =>
    simp only [step] at h
    split at h
    · rename_i e hco hb
      unfold coordPhase at hphase
      simp only [hco] at hphase
      rw [hphase.2.2.1] at hc
      simp at hc
    · simp at h
  | coordCloses =>
    simp only [step] at h
    split at h
    · simp only [Option.some.injEq] at h
      subst h
      exact ⟨rfl, rfl⟩
    · simp at h
  | coordAcks =>
    simp only [step] at h
    split at h
    · simp only [Option.some.injEq] at h
      subst h
      exact ⟨rfl, hc⟩
    · simp at h
  | closeCalled =>
    simp only [step] at h
    split at h
    · simp only [Option.some.injEq] at h
      subst h
      exact ⟨rfl, hc⟩
    · simp at h
  | readerRecv =>
    simp only [step] at h
    split at h
    · simp only [Option.some.injEq] at h
      subst h
      exact ⟨rfl, hc⟩
    · simp at h

/-- Once `errs` is closed nothing is sent on it along any sequence of actions. -/
theorem closed_run (evs : List Event) (s t : server) (hi : Inv s)
    (hc : s.errsClosed = true) (h : run evs s = some t) :
    t.errsSent = s.errsSent ∧ t.errsClosed = true := by
  induction evs generalizing s with
  | nil =>
    simp only [run, Option.some.injEq] at h
    subst h
    exact ⟨rfl, hc⟩
  | cons ev evs ih =>
    simp only [run] at h
    split at h
    · rename_i s1 hs1
      obtain ⟨h1, h2⟩ := closed_step ev s s1 hi hc hs1
      obtain ⟨h3, h4⟩ := ih s1 (Inv_step ev s s1 hi hs1) h2 h
      exact ⟨h3.trans h1, h4⟩
    · simp at h

/-- At most one error is ever sent on `errs`. -/
theorem Inv_errsSent_le (s : server) (hi : Inv s) : s.errsSent.length ≤ 1 := by
  have hphase := hi.phase
  unfold coordPhase at hphase
  cases hc : s.coord with
  | notStarted => simp [hc] at hphase
  | selecting => simp only [hc] at hphase; simp [hphase.1]
  | forwarding e => simp only [hc] at hphase; simp [hphase.1]
  | closing =>
    simp only [hc, sentMatches] at hphase
    rcases hphase.2 with hx | hx
    · omega
    · simp [hx.2]
  | signalling =>
    simp only [hc, sentMatches] at hphase
    rcases hphase.2 with hx | hx
    · omega
    · simp [hx.2]
  | finished => simp only [hc] at hphase; simp [hphase.2.1]

/-- When `errs` is closed, exactly one error was sent if the coordination
goroutine had not received the close signal, and none otherwise. -/
theorem Inv_closed_sent (s : server) (hi : Inv s) (hcl : s.errsClosed = true) :
    (s.closer.beforeSignal = true → ∃ e, s.errsSent = [e]) ∧
    (s.closer.beforeSignal = false → s.errsSent = []) := by
  have hphase := hi.phase
  unfold coordPhase at hphase
  cases hc : s.coord with
  | notStarted => simp [hc] at hphase
  | selecting => simp only [hc] at hphase; simp [hphase.2.2.1] at hcl
  | forwarding e => simp only [hc] at hphase; simp [hphase.2.2.1] at hcl
  | closing => simp only [hc] at hphase; simp [hphase.1] at hcl
  | signalling =>
    simp only [hc, sentMatches] at hphase
    rcases hphase.2 with hx | hx
    · refine ⟨fun _ => ?_, fun hb => ?_⟩
      · exact List.length_eq_one.mp hx.2
      · rw [hx.1] at hb
        simp at hb
    · refine ⟨fun hb => ?_, fun _ => hx.2⟩
      cases hk : s.closer <;> simp [hk, OncePc.beforeSignal, OncePc.isAwaiting] at hb hx
  | finished =>
    simp only [hc] at hphase
    refine ⟨fun hb => ?_, fun _ => hphase.2.1⟩
    cases hk : s.closer <;>
      simp [hk, OncePc.beforeSignal, OncePc.isFinished] at hb hphase

/-- A listener that holds an error can always send it on `srvErrs`. -/
theorem Inv_listenerSends (s : server) (hi : Inv s) (i : Nat) (e : String)
    (hl : s.listeners[i]? = some (ListenerPc.sending e)) :
    ∃ t, step (Event.listenerSends i) s = some t ∧
      t.srvErrs = s.srvErrs ++ [e] := by
  have hlt := finishedCount_lt_length s.listeners i _ hl (by simp)
  have hle := hi.srvErrs_le
  have hcap : s.srvErrs.length < s.srvErrsCap := by
    rw [hi.srvErrsCap_eq]
    omega
  simp [step, hl, hcap]

/-- A coordination goroutine that has taken an error sends it on `errs` and
closes `errs`. -/
theorem Inv_forwarding (s : server) (hi : Inv s) (e : String)
    (hc : s.coord = CoordPc.forwarding e) :
    ∃ t, run [Event.coordSends, Event.coordCloses] s = some t ∧
      t.errsSent = [e] ∧ t.errsClosed = true := by
  have hphase := hi.phase
  unfold coordPhase at hphase
  simp only [hc] at hphase
  obtain ⟨hsent, hbuf, _, _, hlen, _⟩ := hphase
  have hcap : s.errsBuf.length < s.errsCap := by
    rw [hi.errsCap_eq, hbuf]
    exact hlen
  simp [run, step, hc, hcap, hsent]

/-- C9 as stated fails: on the one-endpoint server a listener fails with an
error other than the closed-connection error, and even queues it in `srvErrs`,
before `Close` is called; the `select` of the coordination goroutine then has
two ready cases and takes the close signal, so `errs` is closed with no error
sent on it. The same happens when the listener still holds its error. -/
theorem C9_failure_before_close_counterexample :
    ¬ (∀ (evs : List Event) (t : server), failsBeforeClose evs = true →
        run evs oneEndpointServer = some t → t.errsClosed = true →
        t.errsSent.length = 1) ∧
    failsBeforeClose failThenCloseWins = true ∧
    (run failThenCloseWins oneEndpointServer).map
        (fun t => (t.errsClosed, t.errsSent, t.srvErrs)) =
      some (true, [], [acceptFailure]) ∧
    failsBeforeClose failInHandThenClose = true ∧
    (run failInHandThenClose oneEndpointServer).map
        (fun t => (t.errsClosed, t.errsSent, t.listeners)) =
      some (true, [], [ListenerPc.sending acceptFailure]) := by
  refine ⟨?_, by decide, by decide, by decide, by decide⟩
  intro hall
  have hfacts : (run failThenCloseWins oneEndpointServer).map
      (fun t => (t.errsClosed, t.errsSent)) = some (true, []) := by
    decide
  cases hr : run failThenCloseWins oneEndpointServer with
  | none =>
    rw [hr] at hfacts
    simp at hfacts
  | some t =>
    rw [hr] at hfacts
    simp only [Option.map_some', Option.some.injEq, Prod.mk.injEq] at hfacts
    have hlen := hall failThenCloseWins t (by decide) hr hfacts.1
    rw [hfacts.2] at hlen
    simp at hlen

/-- C9 amended: for every run of a started server, with any number of
endpoints. (1) A listener whose serve loop ends with no error, or with an error
whose text contains "use of closed network connection", ends without sending:
`srvErrs` and `errs` are left as they were. (2) A listener error with any other
text is forwarded: the listener holds it and its send on `srvErrs` is enabled
and appends it. (3) Only such errors are ever in `srvErrs` or sent on `errs`.
(4) At most one error is ever sent on `errs`. (5) While `Close` has not been
called the `select` of the coordination goroutine cannot take the close signal,
and it takes a waiting listener error; having taken it, it sends it on `errs`
and closes `errs`. (6) When `errs` is closed, exactly one error was sent on it
if the coordination goroutine left its `select` through a listener error, and
none if it left through the close signal. (7) After the close nothing is sent
on `errs`, and it stays closed. (8) When a listener error waits in `srvErrs`
and a `Close` is blocked in `s.closeSignal <- 1`, the `select` may take either:
the error, or the close signal, and then `errs` is closed with no error sent
and the listener error is left in `srvErrs`. -/
theorem C9_public_error_channel (d : Deps) (config : Option Config)
    (s0 s : server) (hs0 : Serve d config = ServeResult.started s0)
    (hr : Reachable s0 s) :
    (∀ (i : Nat) (err : Option String) (t : server),
      (err = none ∨ ∃ e, err = some e ∧
        stringsContains e closedNetworkText = true) →
      step (Event.listenerEnds i err) s = some t →
      t.listeners[i]? = some ListenerPc.finished ∧
      t.srvErrs = s.srvErrs ∧ t.errsSent = s.errsSent ∧ t.errsBuf = s.errsBuf) ∧
    (∀ (i : Nat) (e : String) (t : server),
      stringsContains e closedNetworkText = false →
      step (Event.listenerEnds i (some e)) s = some t →
      t.listeners[i]? = some (ListenerPc.sending e) ∧
      ∃ u, step (Event.listenerSends i) t = some u ∧
        u.srvErrs = t.srvErrs ++ [e]) ∧
    (∀ e ∈ s.srvErrs ++ s.errsSent,
      stringsContains e closedNetworkText = false) ∧
    s.errsSent.length ≤ 1 ∧
    (∀ (e : String) (rest : List String),
      s.coord = CoordPc.selecting → s.srvErrs = e :: rest →
      s.closer = OncePc.idle →
      step Event.coordRecvClose s = none ∧
      ∃ t u, step Event.coordRecvErr s = some t ∧
        t.coord = CoordPc.forwarding e ∧
        run [Event.coordSends, Event.coordCloses] t = some u ∧
        u.errsSent = [e] ∧ u.errsClosed = true) ∧
    (s.errsClosed = true →
      (s.closer.beforeSignal = true → ∃ e, s.errsSent = [e]) ∧
      (s.closer.beforeSignal = false → s.errsSent = [])) ∧
    (s.errsClosed = true → ∀ (evs : List Event) (t : server),
      run evs s = some t → t.errsSent = s.errsSent ∧ t.errsClosed = true) ∧
    (∀ (e : String) (rest : List String) (err : Option String),
      s.coord = CoordPc.selecting → s.srvErrs = e :: rest →
      s.closer = OncePc.sendingCloseSignal err →
      (∃ t, step Event.coordRecvErr s = some t ∧
        t.coord = CoordPc.forwarding e) ∧
      (∃ t, run [Event.coordRecvClose, Event.coordCloses, Event.coordAcks] s =
          some t ∧
        t.errsClosed = true ∧ t.errsSent = [] ∧ t.srvErrs = e :: rest)) := by
  obtain ⟨evs0, hrun⟩ := hr
  have hi : Inv s := Inv_run evs0 s0 s (Inv_started d config s0 hs0) hrun
  refine ⟨?_, ?_, ?_, Inv_errsSent_le s hi, ?_, Inv_closed_sent s hi, ?_, ?_⟩
  · intro i err t herr hstep
    have hfin : listenerAfterServe err = ListenerPc.finished := by
      rcases herr with rfl | ⟨e, rfl, he⟩
      · rfl
      · simp [listenerAfterServe, he]
    simp only [step] at hstep
    split at hstep
    · rename_i hget
      simp only [Option.some.injEq] at hstep
      subst hstep
      have hlt : i < s.listeners.length := by
        by_contra hge
        rw [List.getElem?_eq_none (by omega)] at hget
        simp at hget
      simp [hfin, List.getElem?_set_self, hlt]
    · simp at hstep
  · intro i e t he hstep
    have hsend : listenerAfterServe (some e) = ListenerPc.sending e := by
      simp [listenerAfterServe, he]
    have hit : Inv t := Inv_step _ s t hi hstep
    have hget2 : t.listeners[i]? = some (ListenerPc.sending e) := by
      simp only [step] at hstep
      split at hstep
      · rename_i hget
        simp only [Option.some.injEq] at hstep
        subst hstep
        have hlt : i < s.listeners.length := by
          by_contra hge
          rw [List.getElem?_eq_none (by omega)] at hget
          simp at hget
        simp [hsend, List.getElem?_set_self, hlt]
      · simp at hstep
    exact ⟨hget2, Inv_listenerSends t hit i e hget2⟩
  · intro e he
    rcases List.mem_append.mp he with h | h
    · exact hi.srvErrs_ok e h
    · exact hi.sent_ok e h
  · intro e rest hc hq hk
    have hstep : step Event.coordRecvErr s =
        some { s with coord := CoordPc.forwarding e, srvErrs := rest } := by
      simp [step, hc, hq]
    have hit := Inv_step _ s _ hi hstep
    obtain ⟨u, hu1, hu2, hu3⟩ := Inv_forwarding _ hit e rfl
    refine ⟨by simp [step, hc, hk], _, u, hstep, rfl, hu1, hu2, hu3⟩
  · intro hcl evs t hrun2
    exact closed_run evs s t hi hcl hrun2
  · intro e rest err hc hq hk
    have hphase := hi.phase
    unfold coordPhase at hphase
    simp only [hc] at hphase
    have hstep : step Event.coordRecvErr s =
        some { s with coord := CoordPc.forwarding e, srvErrs := rest } := by
      simp [step, hc, hq]
    refine ⟨⟨_, hstep, rfl⟩, ?_⟩
    simp [run, step, hc, hk, hq, hphase.1]

/-- Witness of C9 amended. On the one-endpoint server a listener that ends with
the closed-connection error ends without sending, and one that ends with
another error holds it and can send it on `srvErrs`; after its listener failed
with such an error, one error was sent on `errs`, which is closed, and nothing
is sent afterwards. -/
theorem C9_public_error_channel_witness :
    Serve (sampleDeps [tcpEndpoint]) (some sampleConfig) =
      ServeResult.started oneEndpointServer ∧
    stringsContains closedConnError closedNetworkText = true ∧
    step (Event.listenerEnds 0 (some closedConnError)) oneEndpointServer =
      some quietServer ∧
    (quietServer.listeners[0]? = some ListenerPc.finished ∧
      quietServer.srvErrs = oneEndpointServer.srvErrs ∧
      quietServer.errsSent = oneEndpointServer.errsSent ∧
      quietServer.errsBuf = oneEndpointServer.errsBuf) ∧
    stringsContains acceptFailure closedNetworkText = false ∧
    step (Event.listenerEnds 0 (some acceptFailure)) oneEndpointServer =
      some { oneEndpointServer with
        listeners := [ListenerPc.sending acceptFailure] } ∧
    Reachable oneEndpointServer erroredServer ∧
    erroredServer.errsSent.length ≤ 1 ∧
    (∃ e, erroredServer.errsSent = [e]) ∧
    (∀ (evs : List Event) (t : server), run evs erroredServer = some t →
      t.errsSent = erroredServer.errsSent ∧ t.errsClosed = true) :=
  ⟨by decide, by decide, by decide,
   (C9_public_error_channel (sampleDeps [tcpEndpoint]) (some sampleConfig)
      oneEndpointServer oneEndpointServer (by decide) ⟨[], rfl⟩).1
      0 (some closedConnError) quietServer
      (Or.inr ⟨closedConnError, rfl, by decide⟩) (by decide),
   by decide, by decide,
   ⟨failThenClose.take 5, by decide⟩,
   (C9_public_error_channel (sampleDeps [tcpEndpoint]) (some sampleConfig)
      oneEndpointServer erroredServer (by decide)
      ⟨failThenClose.take 5, by decide⟩).2.2.2.1,
   ((C9_public_error_channel (sampleDeps [tcpEndpoint]) (some sampleConfig)
      oneEndpointServer erroredServer (by decide)
      ⟨failThenClose.take 5, by decide⟩).2.2.2.2.2.1 (by decide)).1 (by decide),
   (C9_public_error_channel (sampleDeps [tcpEndpoint]) (some sampleConfig)
      oneEndpointServer erroredServer (by decide)
      ⟨failThenClose.take 5, by decide⟩).2.2.2.2.2.2.1 (by decide)⟩

end LibStorage
